import Mathlib

/-!
Shallow embedding of the transactional configuration CRUD layer of the
client-native repository: the TCP content rule operations
(src/configuration/tcp_content_rule.go) and the backend switching rule
operations (src/unnamed/part_000), together with the record parser, the
scope resolver and the hierarchical cache they use.

External collaborators (the engine invocation, the version service, the
schema validator and the per-entity field-inflation routine) are modelled
as oracle functions carried by the `Client` structure, exactly as the spec
describes them as interfaces.  Repository code that the operations call
but that is not part of the two source files (splitHeaderLine, parseObject,
typeToLbctlType, createObject/editObject/deleteObject, the cache methods)
is modelled from the spec, as marked on each definition.

Every operation is a pure function from the client, the cache state and
the call arguments to the result, the list of observable events (engine
invocations, cache writes, cache invalidations) and the new cache state.
-/

/-- Error codes mirroring the repository's ConfError kinds (§7 of the spec:
ValidationError, NotFoundError, ConflictError, EngineError). -/
inductive ConfErrCode where
  | validationError
  | notFoundError
  | conflictError
  | engineError
deriving DecidableEq

/-- Mirrors the repository's ConfError: an error code plus a message. -/
structure ConfError where
  code : ConfErrCode
  msg : String
deriving DecidableEq

/-- The repository's ErrValidationError code. -/
def ErrValidationError : ConfErrCode := ConfErrCode.validationError

/-- Mirrors NewConfError(code, msg). -/
def NewConfError (code : ConfErrCode) (msg : String) : ConfError := ⟨code, msg⟩

/-! ### Go string primitives, modelled over character lists

Go's strings.Split / strings.TrimSpace / strings.Fields and
strconv.ParseInt / strconv.FormatInt, written with structural recursion so
that concrete inputs evaluate definitionally. -/

/-- Go whitespace (unicode.IsSpace restricted to the ASCII characters that
occur in engine dumps): space, tab, newline, carriage return, vertical tab,
form feed. -/
def isSpaceChar (c : Char) : Bool :=
  c = ' ' || c = '\t' || c = '\n' || c = '\r' || c = '\x0b' || c = '\x0c'

/-- Go strings.Split(s, "\n\n") over the character list: cut at each
non-overlapping occurrence of two consecutive newlines, left to right. -/
def splitBlocksAux : List Char → List Char → List (List Char)
  | [], acc => [acc.reverse]
  | '\n' :: '\n' :: rest, acc => acc.reverse :: splitBlocksAux rest []
  | c :: rest, acc => splitBlocksAux rest (c :: acc)

/-- Go strings.Split(s, "\n\n"), producing the blocks as strings. -/
def splitBlocks (s : String) : List String :=
  (splitBlocksAux s.data []).map String.mk

/-- Go strings.TrimSpace over the character list. -/
def trimSpace (cs : List Char) : List Char :=
  ((cs.dropWhile isSpaceChar).reverse.dropWhile isSpaceChar).reverse

/-- Whether Go strings.TrimSpace(s) == "" (the block is all whitespace). -/
def isBlankBlock (s : String) : Bool := trimSpace s.data = []

/-- Digit-run evaluation of Go's strconv.ParseInt digit loop: the value of a
non-empty run of decimal digits, none on an empty run or any non-digit. -/
def digitsVal (cs : List Char) : Option Nat :=
  match cs with
  | [] => none
  | _ =>
    cs.foldl
      (fun acc c =>
        match acc with
        | none => none
        | some n => if c.isDigit then some (n * 10 + (c.toNat - 48)) else none)
      (some 0)

/-- Go strconv.ParseInt(s, 10, 64): an optional sign, a non-empty run of
decimal digits, and a 64-bit range check (out of range is an error, which the
parser callers turn into ID 0). -/
def parseInt64 (s : String) : Option Int :=
  let signDigs : Int × List Char :=
    match s.data with
    | '-' :: t => (-1, t)
    | '+' :: t => (1, t)
    | t => (1, t)
  match digitsVal signDigs.2 with
  | none => none
  | some n =>
    let v : Int := signDigs.1 * (n : Int)
    if v < -(2 ^ 63) ∨ (2 ^ 63 - 1) < v then none else some v

/-- The decimal digit character for a value below ten. -/
def digitChar (n : Nat) : Char :=
  match n with
  | 0 => '0' | 1 => '1' | 2 => '2' | 3 => '3' | 4 => '4'
  | 5 => '5' | 6 => '6' | 7 => '7' | 8 => '8' | _ => '9'

/-- Decimal digit characters of a natural number, most significant first;
fuel-based so that concrete inputs reduce definitionally (any fuel above the
number itself is enough). -/
def natDigs : Nat → Nat → List Char
  | 0, _ => []
  | fuel + 1, n =>
    if n < 10 then [digitChar n] else natDigs fuel (n / 10) ++ [digitChar (n % 10)]

/-- Go strconv.FormatInt(i, 10). -/
def formatInt (i : Int) : String :=
  if i < 0 then String.mk ('-' :: natDigs ((-i).toNat + 1) (-i).toNat)
  else String.mk (natDigs (i.toNat + 1) i.toNat)

/-- Inverse reading of a formatted integer's characters, used to prove
`formatInt` injective. -/
def unformatChars : List Char → Option Int
  | [] => none
  | c :: t =>
    if c = '-' then
      match digitsVal t with
      | some n => some (-(n : Int))
      | none => none
    else
      match digitsVal (c :: t) with
      | some n => some ((n : Int))
      | none => none

/-- Modelled from the spec: `splitHeaderLine` is repository code that is not
under src/.  Per the spec's RawRecord description a record's "first line's
leading token is the record's positional ID (or name); remaining lines are
field assignments", so this returns the first whitespace-separated token of
the record's first line together with the remainder after that line. -/
def splitHeaderLine (s : String) : String × String :=
  let headerTok :=
    ((s.data.takeWhile (fun c => c != '\n')).dropWhile isSpaceChar).takeWhile
      (fun c => !(isSpaceChar c))
  let rest := (s.data.dropWhile (fun c => c != '\n')).tailD []
  (String.mk headerTok, String.mk rest)

/-! ### Entities and the client with its external collaborators -/

/-- Shared shape of the rule entities (models.TCPRule and
models.BackendSwitchingRule): the positional ID plus the entity-specific
fields, kept abstract as key/value pairs since the models package is an
external collaborator. -/
structure RuleObj where
  id : Int
  fields : List (String × String)
deriving DecidableEq

/-- The client with its external collaborators as oracles: the cache toggle
(Cache.Enabled), the UseValidation flag, schema validation (data.Validate —
none means the payload is valid, some msg the validation failure message),
the engine invocation executeLBCTL(command, transactionID, args), the version
service GetVersion, the per-transaction version tracked by the cache
(Cache.Version.Get) and the entity-specific field-inflation routine used by
parseObject. -/
structure Client where
  cacheEnabled : Bool
  useValidation : Bool
  validate : RuleObj → Option String
  executeLBCTL : String → String → List String → Except ConfError String
  getVersion : String → Except ConfError Int
  cacheVersionGet : String → Int
  parseFields : String → List (String × String)

/-- Modelled from the spec: `parseObject` is the entity-type-specific
field-inflation routine, which the spec lists as supplied externally ("the
parser's field-inflation step is entity-type-specific and supplied by the
caller of the Record Parser"); it fills the entity's fields from the record
text and leaves the already-assigned positional ID alone ("remaining lines
are field assignments"). -/
def parseObject (c : Client) (s : String) (r : RuleObj) : RuleObj :=
  { r with fields := c.parseFields s }

/-! ### The record parsers (src/configuration/tcp_content_rule.go lines
254-271 and src/unnamed/part_000 lines 123-140) -/

/-- parseTCPContentRules: split the engine dump on blank-line boundaries,
skip blocks that are all whitespace, and inflate each remaining block in
order, its ID read from the header token and falling back to 0 when the
token is not a valid integer. -/
def parseTCPContentRules (c : Client) (response : String) : List RuleObj :=
  (splitBlocks response).foldl
    (fun tcpRules tcpRulesStr =>
      if isBlankBlock tcpRulesStr then tcpRules
      else
        let idStr := (splitHeaderLine tcpRulesStr).1
        let id : Int :=
          match parseInt64 idStr with
          | some n => n
          | none => 0
        tcpRules ++ [parseObject c tcpRulesStr ⟨id, []⟩])
    []

/-- parseBackendSwitchingRules: identical record-parsing protocol for the
backend switching rule entity type. -/
def parseBackendSwitchingRules (c : Client) (response : String) : List RuleObj :=
  (splitBlocks response).foldl
    (fun bckRules bckRulesStr =>
      if isBlankBlock bckRulesStr then bckRules
      else
        let idStr := (splitHeaderLine bckRulesStr).1
        let id : Int :=
          match parseInt64 idStr with
          | some n => n
          | none => 0
        bckRules ++ [parseObject c bckRulesStr ⟨id, []⟩])
    []

/-- Inflation of one non-blank block, as the spec describes it: the ID from
the header token (0 when unparsable) and the fields from the inflation
routine. -/
def inflateBlock (c : Client) (b : String) : RuleObj :=
  parseObject c b ⟨(parseInt64 (splitHeaderLine b).1).getD 0, []⟩

/-- The claim's description of the parse result: split the string on
blank-line boundaries, skip the blocks that are empty after trimming
whitespace, and inflate each remaining block in input order. -/
def splitInflateSpec (c : Client) (s : String) : List RuleObj :=
  ((splitBlocks s).filter (fun b => !(isBlankBlock b))).map (inflateBlock c)

/-- The ID the parser assigns to one block: the header token's integer value,
or zero when the token is not a valid integer. -/
def blockID (b : String) : Int := (parseInt64 (splitHeaderLine b).1).getD 0

/-! ### The hierarchical cache, modelled from the spec

The cache implementation is repository code that is not under src/; the two
source files only call its methods.  Per the spec (§3, §4.3) a cache entry is
keyed by (EntityType, RuleType?, TransactionID, ParentType?, ParentName?,
EntityID?) and holds either one parsed entity or an ordered collection;
`InvalidateParent` drops every single-item and collection entry cached for
that scope within that transaction, and the narrower `InvalidateFrontend` /
`InvalidateBackend` variants drop only the entries for scopes rooted at that
specific parent name. -/

/-- The three cache families the two source files use:
Cache.TcpContentRequestRules, Cache.TcpContentResponseRules (keyed without a
parent type), and Cache.BackendSwitchingRules. -/
inductive Family where
  | tcpreq
  | tcprsp
  | bckswitch
deriving DecidableEq

/-- A cache key: family, transaction, parent scope and, for single-entity
entries, the entity ID (none marks the collection entry for the scope). -/
structure CacheKey where
  fam : Family
  tx : String
  parentType : String
  parentName : String
  entityID : Option Int
deriving DecidableEq

/-- A cache entry: one entity or an ordered collection. -/
inductive CacheVal where
  | one (r : RuleObj)
  | all (rs : List RuleObj)
deriving DecidableEq

/-- The cache content, as a map from keys to entries. -/
def CacheState := CacheKey → Option CacheVal

/-- Modelled from the spec: the cache's collection lookup (Get). -/
def cacheGetAll (st : CacheState) (k : CacheKey) : Option (List RuleObj) :=
  match st k with
  | some (CacheVal.all rs) => some rs
  | _ => none

/-- Modelled from the spec: the cache's single-entity lookup (GetOne). -/
def cacheGetOne (st : CacheState) (k : CacheKey) : Option RuleObj :=
  match st k with
  | some (CacheVal.one r) => some r
  | _ => none

/-- Modelled from the spec: the cache's Set / SetAll store. -/
def cacheStore (st : CacheState) (k : CacheKey) (v : CacheVal) : CacheState :=
  fun k2 => if k2 = k then some v else st k2

/-- Modelled from the spec: InvalidateParent — drop every entry of the family
cached for that (parentType, parentName) scope within that transaction. -/
def invalidateParentSt (st : CacheState) (fam : Family) (tx name ptype : String) :
    CacheState :=
  fun k =>
    if k.fam = fam ∧ k.tx = tx ∧ k.parentName = name ∧ k.parentType = ptype then none
    else st k

/-- Modelled from the spec: the narrower InvalidateFrontend / InvalidateBackend
variants — drop every entry of the family rooted at that parent name within
that transaction. -/
def invalidateNameSt (st : CacheState) (fam : Family) (tx name : String) :
    CacheState :=
  fun k => if k.fam = fam ∧ k.tx = tx ∧ k.parentName = name then none else st k

/-- The observable events of one operation: engine invocations (with the
command, the transaction ID handed to the engine, the plain string arguments
and the entity payloads), cache writes, and cache invalidations (parentType
is some pt for InvalidateParent and none for the narrower name-rooted
variants). -/
inductive Event where
  | engineCall (cmd tx : String) (args : List String) (payload : List RuleObj)
  | cacheSetOne (k : CacheKey) (r : RuleObj)
  | cacheSetAll (k : CacheKey) (rs : List RuleObj)
  | invalidate (fam : Family) (tx parentName : String) (parentType : Option String)
deriving DecidableEq

/-- Whether an event is an engine invocation. -/
def Event.isEngine : Event → Bool
  | Event.engineCall .. => true
  | _ => false

/-- Whether an event is a cache write (Set or SetAll). -/
def Event.isWrite : Event → Bool
  | Event.cacheSetOne .. => true
  | Event.cacheSetAll .. => true
  | _ => false

/-- Whether an event is a cache invalidation. -/
def Event.isInvalidate : Event → Bool
  | Event.invalidate .. => true
  | _ => false

/-- The transaction ID an engine invocation hands to the engine, none for
non-engine events. -/
def Event.engineTx : Event → Option String
  | Event.engineCall _ tx _ _ => some tx
  | _ => none

/-- The command of an engine invocation, none for non-engine events. -/
def Event.engineCmd : Event → Option String
  | Event.engineCall cmd _ _ _ => some cmd
  | _ => none

/-! ### The scope resolver and the mutating-call helpers, modelled from
the spec where the code is not under src/ -/

/-- Modelled from the spec: `typeToLbctlType` is repository code not under
src/.  The scope resolver "translates a logical parent/rule-type vocabulary
(e.g. \"frontend\", \"response rule\") into the external engine's vocabulary,
rejecting unrecognized combinations"; the recognized parent types for rules
are the frontend-class and backend-class scopes, and an unrecognized parent
maps to the empty token which the callers turn into a ValidationError. -/
def typeToLbctlType : String → String
  | "frontend" => "service"
  | "backend" => "farm"
  | _ => ""

/-- Modelled from the spec: the concurrency-token check of the mutating-call
helpers ("Exactly one of {TransactionID, explicit ConfigVersion} must be
supplied to every mutating operation; supplying neither or both is a
validation error at the orchestration boundary").  An empty transaction ID
and a zero version mark an absent token. -/
def checkTransactionOrVersion (transactionID : String) (version : Int) :
    Option ConfError :=
  if transactionID ≠ "" ∧ version ≠ 0 then
    some (NewConfError ErrValidationError "Both transactionID and version specified, please specify only one")
  else if transactionID = "" ∧ version = 0 then
    some (NewConfError ErrValidationError "Version or transactionID not specified, please specify only one")
  else none

/-- Modelled from the spec: `createObject` is repository code not under src/.
It checks the concurrency token at the orchestration boundary and, when the
token is valid, invokes the engine "create" command for the scope with the
new payload; the engine result is propagated as-is. -/
def createObject (c : Client) (objID rType parentName lbctlType : String)
    (data : RuleObj) (transactionID : String) (version : Int) :
    Except ConfError Unit × List Event :=
  match checkTransactionOrVersion transactionID version with
  | some e => (Except.error e, [])
  | none =>
    let cmd := "l7-" ++ lbctlType ++ "-" ++ rType ++ "-create"
    let ev := Event.engineCall cmd transactionID [parentName, objID] [data]
    match c.executeLBCTL cmd transactionID [parentName, objID] with
    | Except.error e => (Except.error e, [ev])
    | Except.ok _ => (Except.ok (), [ev])

/-- Modelled from the spec: `deleteObject` is repository code not under src/.
Same token check, then the engine "delete" command for the entity. -/
def deleteObject (c : Client) (objID rType parentName lbctlType : String)
    (transactionID : String) (version : Int) :
    Except ConfError Unit × List Event :=
  match checkTransactionOrVersion transactionID version with
  | some e => (Except.error e, [])
  | none =>
    let cmd := "l7-" ++ lbctlType ++ "-" ++ rType ++ "-delete"
    let ev := Event.engineCall cmd transactionID [parentName, objID] []
    match c.executeLBCTL cmd transactionID [parentName, objID] with
    | Except.error e => (Except.error e, [ev])
    | Except.ok _ => (Except.ok (), [ev])

/-- Modelled from the spec: `editObject` is repository code not under src/.
Same token check, then the engine "edit" command carrying both the new
payload and the fetched pre-image ("invoke engine \"edit\" with old+new
payload and concurrency token"). -/
def editObject (c : Client) (objID rType parentName lbctlType : String)
    (data ondisk : RuleObj) (transactionID : String) (version : Int) :
    Except ConfError Unit × List Event :=
  match checkTransactionOrVersion transactionID version with
  | some e => (Except.error e, [])
  | none =>
    let cmd := "l7-" ++ lbctlType ++ "-" ++ rType ++ "-edit"
    let ev := Event.engineCall cmd transactionID [parentName, objID] [data, ondisk]
    match c.executeLBCTL cmd transactionID [parentName, objID] with
    | Except.error e => (Except.error e, [ev])
    | Except.ok _ => (Except.ok (), [ev])

/-- Decidable equality for operation results. -/
instance {ε α : Type} [DecidableEq ε] [DecidableEq α] : DecidableEq (Except ε α) :=
  fun x y =>
    match x, y with
    | Except.ok a, Except.ok b =>
      if h : a = b then isTrue (by rw [h])
      else isFalse (by intro he; cases he; exact h rfl)
    | Except.error a, Except.error b =>
      if h : a = b then isTrue (by rw [h])
      else isFalse (by intro he; cases he; exact h rfl)
    | Except.ok _, Except.error _ => isFalse (by intro he; cases he)
    | Except.error _, Except.ok _ => isFalse (by intro he; cases he)

/-! ### Result bodies -/

/-- Mirrors the Get*RulesOKBody structures: configuration version plus the
collection. -/
structure GetRulesOKBody where
  version : Int
  data : List RuleObj
deriving DecidableEq

/-- Mirrors the Get*RuleOKBody structures: configuration version plus the
single entity. -/
structure GetRuleOKBody where
  version : Int
  data : RuleObj
deriving DecidableEq

/-! ### TCP content rule operations (src/configuration/tcp_content_rule.go) -/

/-- GetTCPContentRules (lines 14-67): cache lookup first (request and
response families), then scope resolution, then the engine dump — invoked
with an empty transaction ID — then parse, version fetch and cache
population. -/
def GetTCPContentRules (c : Client) (st : CacheState)
    (parentType parentName ruleType transactionID : String) :
    Except ConfError GetRulesOKBody × List Event × CacheState :=
  let cached : Option (List RuleObj) :=
    if c.cacheEnabled then
      if ruleType = "request" then
        cacheGetAll st ⟨Family.tcpreq, transactionID, parentType, parentName, none⟩
      else if ruleType = "response" then
        cacheGetAll st ⟨Family.tcprsp, transactionID, "", parentName, none⟩
      else none
    else none
  match cached with
  | some tcpRules =>
    (Except.ok ⟨c.cacheVersionGet transactionID, tcpRules⟩, [], st)
  | none =>
    let lbctlType := typeToLbctlType parentType
    if lbctlType = "" then
      (Except.error (NewConfError ErrValidationError
        ("Parent type " ++ parentType ++ " not recognized")), [], st)
    else
      let dump : String → Except ConfError GetRulesOKBody × List Event × CacheState :=
        fun lbctlRType =>
          let cmd := "l7-" ++ lbctlType ++ "-" ++ lbctlRType ++ "-dump"
          let ev := Event.engineCall cmd "" [parentName] []
          match c.executeLBCTL cmd "" [parentName] with
          | Except.error e => (Except.error e, [ev], st)
          | Except.ok tcpRulesStr =>
            let tcpRules := parseTCPContentRules c tcpRulesStr
            match c.getVersion transactionID with
            | Except.error e => (Except.error e, [ev], st)
            | Except.ok v =>
              if c.cacheEnabled then
                if ruleType = "request" then
                  let k : CacheKey :=
                    ⟨Family.tcpreq, transactionID, parentType, parentName, none⟩
                  (Except.ok ⟨v, tcpRules⟩, [ev, Event.cacheSetAll k tcpRules],
                    cacheStore st k (CacheVal.all tcpRules))
                else if ruleType = "response" then
                  let k : CacheKey :=
                    ⟨Family.tcprsp, transactionID, "", parentName, none⟩
                  (Except.ok ⟨v, tcpRules⟩, [ev, Event.cacheSetAll k tcpRules],
                    cacheStore st k (CacheVal.all tcpRules))
                else (Except.ok ⟨v, tcpRules⟩, [ev], st)
              else (Except.ok ⟨v, tcpRules⟩, [ev], st)
      if ruleType = "request" then dump "tcpreqcont"
      else if ruleType = "response" then
        if parentType = "frontend" then
          (Except.error (NewConfError ErrValidationError
            "Rule type cannot be response for frontend parent"), [], st)
        else dump "tcprspcont"
      else
        (Except.error (NewConfError ErrValidationError
          ("Rule type " ++ ruleType ++ " not recognized")), [], st)

/-- GetTCPContentRule (lines 71-126): single-entity variant; the engine show
is likewise invoked with an empty transaction ID. -/
def GetTCPContentRule (c : Client) (st : CacheState) (id : Int)
    (parentType parentName ruleType transactionID : String) :
    Except ConfError GetRuleOKBody × List Event × CacheState :=
  let cached : Option RuleObj :=
    if c.cacheEnabled then
      if ruleType = "request" then
        cacheGetOne st ⟨Family.tcpreq, transactionID, parentType, parentName, some id⟩
      else if ruleType = "response" then
        cacheGetOne st ⟨Family.tcprsp, transactionID, "", parentName, some id⟩
      else none
    else none
  match cached with
  | some tcpRule =>
    (Except.ok ⟨c.cacheVersionGet transactionID, tcpRule⟩, [], st)
  | none =>
    let lbctlType := typeToLbctlType parentType
    if lbctlType = "" then
      (Except.error (NewConfError ErrValidationError
        ("Parent type " ++ parentType ++ " not recognized")), [], st)
    else
      let show1 : String → Except ConfError GetRuleOKBody × List Event × CacheState :=
        fun lbctlRType =>
          let cmd := "l7-" ++ lbctlType ++ "-" ++ lbctlRType ++ "-show"
          let ev := Event.engineCall cmd "" [parentName, formatInt id] []
          match c.executeLBCTL cmd "" [parentName, formatInt id] with
          | Except.error e => (Except.error e, [ev], st)
          | Except.ok tcpRuleStr =>
            let tcpRule := parseObject c tcpRuleStr ⟨id, []⟩
            match c.getVersion transactionID with
            | Except.error e => (Except.error e, [ev], st)
            | Except.ok v =>
              if c.cacheEnabled then
                if ruleType = "request" then
                  let k : CacheKey :=
                    ⟨Family.tcpreq, transactionID, parentType, parentName, some id⟩
                  (Except.ok ⟨v, tcpRule⟩, [ev, Event.cacheSetOne k tcpRule],
                    cacheStore st k (CacheVal.one tcpRule))
                else if ruleType = "response" then
                  let k : CacheKey :=
                    ⟨Family.tcprsp, transactionID, "", parentName, some id⟩
                  (Except.ok ⟨v, tcpRule⟩, [ev, Event.cacheSetOne k tcpRule],
                    cacheStore st k (CacheVal.one tcpRule))
                else (Except.ok ⟨v, tcpRule⟩, [ev], st)
              else (Except.ok ⟨v, tcpRule⟩, [ev], st)
      if ruleType = "request" then show1 "tcpreqcont"
      else if ruleType = "response" then
        if parentType = "frontend" then
          (Except.error (NewConfError ErrValidationError
            "Rule type cannot be response for frontend parent"), [], st)
        else show1 "tcprspcont"
      else
        (Except.error (NewConfError ErrValidationError
          ("Rule type " ++ ruleType ++ " not recognized")), [], st)

/-- DeleteTCPContentRule (lines 130-162): scope resolution, rule-type switch,
engine delete, and on success scope invalidation when the cache is enabled. -/
def DeleteTCPContentRule (c : Client) (st : CacheState) (id : Int)
    (parentType parentName ruleType transactionID : String) (version : Int) :
    Except ConfError Unit × List Event × CacheState :=
  let lbctlType := typeToLbctlType parentType
  if lbctlType = "" then
    (Except.error (NewConfError ErrValidationError
      ("Parent type " ++ parentType ++ " not recognized")), [], st)
  else
    let run : String → Except ConfError Unit × List Event × CacheState :=
      fun lbctlRType =>
        match deleteObject c (formatInt id) lbctlRType parentName lbctlType transactionID version with
        | (Except.error e, evs) => (Except.error e, evs, st)
        | (Except.ok _, evs) =>
          if c.cacheEnabled then
            if ruleType = "request" then
              (Except.ok (), evs ++ [Event.invalidate Family.tcpreq transactionID parentName (some parentType)],
                invalidateParentSt st Family.tcpreq transactionID parentName parentType)
            else if ruleType = "response" then
              (Except.ok (), evs ++ [Event.invalidate Family.tcprsp transactionID parentName none],
                invalidateNameSt st Family.tcprsp transactionID parentName)
            else (Except.ok (), evs, st)
          else (Except.ok (), evs, st)
    if ruleType = "request" then run "tcpreqcont"
    else if ruleType = "response" then
      if parentType = "frontend" then
        (Except.error (NewConfError ErrValidationError
          "Rule type cannot be response for frontend parent"), [], st)
      else run "tcprspcont"
    else
      (Except.error (NewConfError ErrValidationError
        ("Rule type " ++ ruleType ++ " not recognized")), [], st)

/-- CreateTCPContentRule (lines 166-204): schema validation, rule-type switch
(checked before the parent type in this operation), scope resolution, engine
create, and on success scope invalidation when the cache is enabled. -/
def CreateTCPContentRule (c : Client) (st : CacheState)
    (parentType parentName ruleType : String) (data : RuleObj)
    (transactionID : String) (version : Int) :
    Except ConfError Unit × List Event × CacheState :=
  let validation : Option ConfError :=
    if c.useValidation then
      match c.validate data with
      | some msg => some (NewConfError ErrValidationError msg)
      | none => none
    else none
  match validation with
  | some e => (Except.error e, [], st)
  | none =>
    let run : String → Except ConfError Unit × List Event × CacheState :=
      fun lbctlRType =>
        let lbctlType := typeToLbctlType parentType
        if lbctlType = "" then
          (Except.error (NewConfError ErrValidationError
            ("Parent type " ++ parentType ++ " not recognized")), [], st)
        else
          match createObject c (formatInt data.id) lbctlRType parentName lbctlType data transactionID version with
          | (Except.error e, evs) => (Except.error e, evs, st)
          | (Except.ok _, evs) =>
            if c.cacheEnabled then
              if ruleType = "request" then
                (Except.ok (), evs ++ [Event.invalidate Family.tcpreq transactionID parentName (some parentType)],
                  invalidateParentSt st Family.tcpreq transactionID parentName parentType)
              else if ruleType = "response" then
                (Except.ok (), evs ++ [Event.invalidate Family.tcprsp transactionID parentName none],
                  invalidateNameSt st Family.tcprsp transactionID parentName)
              else (Except.ok (), evs, st)
            else (Except.ok (), evs, st)
    if ruleType = "request" then run "tcpreqcont"
    else if ruleType = "response" then
      if parentType = "frontend" then
        (Except.error (NewConfError ErrValidationError
          "Rule type cannot be response for frontend parent"), [], st)
      else run "tcprspcont"
    else
      (Except.error (NewConfError ErrValidationError
        ("Rule type " ++ ruleType ++ " not recognized")), [], st)

/-- EditTCPContentRule (lines 208-252): schema validation, scope resolution,
rule-type switch, pre-image fetch through GetTCPContentRule, engine edit with
the payload's ID and both old and new entities, and on success scope
invalidation when the cache is enabled. -/
def EditTCPContentRule (c : Client) (st : CacheState) (id : Int)
    (parentType parentName ruleType : String) (data : RuleObj)
    (transactionID : String) (version : Int) :
    Except ConfError Unit × List Event × CacheState :=
  let validation : Option ConfError :=
    if c.useValidation then
      match c.validate data with
      | some msg => some (NewConfError ErrValidationError msg)
      | none => none
    else none
  match validation with
  | some e => (Except.error e, [], st)
  | none =>
    let lbctlType := typeToLbctlType parentType
    if lbctlType = "" then
      (Except.error (NewConfError ErrValidationError
        ("Parent type " ++ parentType ++ " not recognized")), [], st)
    else
      let run : String → Except ConfError Unit × List Event × CacheState :=
        fun lbctlRType =>
          match GetTCPContentRule c st id parentType parentName ruleType transactionID with
          | (Except.error e, gevs, gst) => (Except.error e, gevs, gst)
          | (Except.ok ondiskBr, gevs, gst) =>
            match editObject c (formatInt data.id) lbctlRType parentName lbctlType data
                ondiskBr.data transactionID version with
            | (Except.error e, evs) => (Except.error e, gevs ++ evs, gst)
            | (Except.ok _, evs) =>
              if c.cacheEnabled then
                if ruleType = "request" then
                  (Except.ok (),
                    gevs ++ evs ++ [Event.invalidate Family.tcpreq transactionID parentName (some parentType)],
                    invalidateParentSt gst Family.tcpreq transactionID parentName parentType)
                else if ruleType = "response" then
                  (Except.ok (),
                    gevs ++ evs ++ [Event.invalidate Family.tcprsp transactionID parentName none],
                    invalidateNameSt gst Family.tcprsp transactionID parentName)
                else (Except.ok (), gevs ++ evs, gst)
              else (Except.ok (), gevs ++ evs, gst)
      if ruleType = "request" then run "tcpreqcont"
      else if ruleType = "response" then
        if parentType = "frontend" then
          (Except.error (NewConfError ErrValidationError
            "Rule type cannot be response for frontend parent"), [], st)
        else run "tcprspcont"
      else
        (Except.error (NewConfError ErrValidationError
          ("Rule type " ++ ruleType ++ " not recognized")), [], st)

/-! ### Backend switching rule operations (src/unnamed/part_000) -/

/-- GetBackendSwitchingRules (lines 13-36): cache lookup, then the engine
dump — invoked with the caller's transaction ID — then parse, version fetch
and cache population. -/
def GetBackendSwitchingRules (c : Client) (st : CacheState)
    (frontend transactionID : String) :
    Except ConfError GetRulesOKBody × List Event × CacheState :=
  let key : CacheKey := ⟨Family.bckswitch, transactionID, "", frontend, none⟩
  let cached : Option (List RuleObj) :=
    if c.cacheEnabled then cacheGetAll st key else none
  match cached with
  | some bckRules =>
    (Except.ok ⟨c.cacheVersionGet transactionID, bckRules⟩, [], st)
  | none =>
    let cmd := "l7-service-usefarm-dump"
    let ev := Event.engineCall cmd transactionID [frontend] []
    match c.executeLBCTL cmd transactionID [frontend] with
    | Except.error e => (Except.error e, [ev], st)
    | Except.ok bckRulesString =>
      let bckRules := parseBackendSwitchingRules c bckRulesString
      match c.getVersion transactionID with
      | Except.error e => (Except.error e, [ev], st)
      | Except.ok v =>
        if c.cacheEnabled then
          (Except.ok ⟨v, bckRules⟩, [ev, Event.cacheSetAll key bckRules],
            cacheStore st key (CacheVal.all bckRules))
        else (Except.ok ⟨v, bckRules⟩, [ev], st)

/-- GetBackendSwitchingRule (lines 40-65): single-entity variant, engine show
invoked with the caller's transaction ID. -/
def GetBackendSwitchingRule (c : Client) (st : CacheState) (id : Int)
    (frontend transactionID : String) :
    Except ConfError GetRuleOKBody × List Event × CacheState :=
  let key : CacheKey := ⟨Family.bckswitch, transactionID, "", frontend, some id⟩
  let cached : Option RuleObj :=
    if c.cacheEnabled then cacheGetOne st key else none
  match cached with
  | some bckRule =>
    (Except.ok ⟨c.cacheVersionGet transactionID, bckRule⟩, [], st)
  | none =>
    let cmd := "l7-service-usefarm-show"
    let ev := Event.engineCall cmd transactionID [frontend, formatInt id] []
    match c.executeLBCTL cmd transactionID [frontend, formatInt id] with
    | Except.error e => (Except.error e, [ev], st)
    | Except.ok bckRuleStr =>
      let bckRule := parseObject c bckRuleStr ⟨id, []⟩
      match c.getVersion transactionID with
      | Except.error e => (Except.error e, [ev], st)
      | Except.ok v =>
        if c.cacheEnabled then
          (Except.ok ⟨v, bckRule⟩, [ev, Event.cacheSetOne key bckRule],
            cacheStore st key (CacheVal.one bckRule))
        else (Except.ok ⟨v, bckRule⟩, [ev], st)

/-- DeleteBackendSwitchingRule (lines 69-78): engine delete, and on success
frontend-scope invalidation when the cache is enabled. -/
def DeleteBackendSwitchingRule (c : Client) (st : CacheState) (id : Int)
    (frontend transactionID : String) (version : Int) :
    Except ConfError Unit × List Event × CacheState :=
  match deleteObject c (formatInt id) "usefarm" frontend "service" transactionID version with
  | (Except.error e, evs) => (Except.error e, evs, st)
  | (Except.ok _, evs) =>
    if c.cacheEnabled then
      (Except.ok (), evs ++ [Event.invalidate Family.bckswitch transactionID frontend none],
        invalidateNameSt st Family.bckswitch transactionID frontend)
    else (Except.ok (), evs, st)

/-- CreateBackendSwitchingRule (lines 82-97): schema validation, engine
create, and on success frontend-scope invalidation when the cache is
enabled. -/
def CreateBackendSwitchingRule (c : Client) (st : CacheState)
    (frontend : String) (data : RuleObj) (transactionID : String) (version : Int) :
    Except ConfError Unit × List Event × CacheState :=
  let validation : Option ConfError :=
    if c.useValidation then
      match c.validate data with
      | some msg => some (NewConfError ErrValidationError msg)
      | none => none
    else none
  match validation with
  | some e => (Except.error e, [], st)
  | none =>
    match createObject c (formatInt data.id) "usefarm" frontend "service" data transactionID version with
    | (Except.error e, evs) => (Except.error e, evs, st)
    | (Except.ok _, evs) =>
      if c.cacheEnabled then
        (Except.ok (), evs ++ [Event.invalidate Family.bckswitch transactionID frontend none],
          invalidateNameSt st Family.bckswitch transactionID frontend)
      else (Except.ok (), evs, st)

/-- EditBackendSwitchingRule (lines 101-121): schema validation, pre-image
fetch through GetBackendSwitchingRule, engine edit with the payload's ID and
both old and new entities, and on success frontend-scope invalidation when
the cache is enabled. -/
def EditBackendSwitchingRule (c : Client) (st : CacheState) (id : Int)
    (frontend : String) (data : RuleObj) (transactionID : String) (version : Int) :
    Except ConfError Unit × List Event × CacheState :=
  let validation : Option ConfError :=
    if c.useValidation then
      match c.validate data with
      | some msg => some (NewConfError ErrValidationError msg)
      | none => none
    else none
  match validation with
  | some e => (Except.error e, [], st)
  | none =>
    match GetBackendSwitchingRule c st id frontend transactionID with
    | (Except.error e, gevs, gst) => (Except.error e, gevs, gst)
    | (Except.ok ondiskBr, gevs, gst) =>
      match editObject c (formatInt data.id) "usefarm" frontend "service" data
          ondiskBr.data transactionID version with
      | (Except.error e, evs) => (Except.error e, gevs ++ evs, gst)
      | (Except.ok _, evs) =>
        if c.cacheEnabled then
          (Except.ok (),
            gevs ++ evs ++ [Event.invalidate Family.bckswitch transactionID frontend none],
            invalidateNameSt gst Family.bckswitch transactionID frontend)
        else (Except.ok (), gevs ++ evs, gst)

/-! ### Concrete clients and cache states used by witnesses and
counterexamples -/

/-- The empty cache. -/
def emptyCache : CacheState := fun _ => none

/-- A client with the cache enabled and every collaborator succeeding
trivially. -/
def okClient : Client :=
  ⟨true, false, fun _ => none, fun _ _ _ => Except.ok "", fun _ => Except.ok 1,
    fun _ => 0, fun _ => []⟩

/-- A client with the cache disabled and every collaborator succeeding
trivially. -/
def disabledClient : Client :=
  ⟨false, false, fun _ => none, fun _ _ _ => Except.ok "", fun _ => Except.ok 1,
    fun _ => 0, fun _ => []⟩

/-- A cache-disabled client whose engine is down: every invocation fails. -/
def downClient : Client :=
  ⟨false, false, fun _ => none,
    fun _ _ _ => Except.error ⟨ConfErrCode.engineError, "engine down"⟩,
    fun _ => Except.ok 1, fun _ => 0, fun _ => []⟩

/-- A cache-enabled client whose engine accepts every command except the
backend-switching edit, which fails. -/
def editFailClient : Client :=
  ⟨true, false, fun _ => none,
    fun cmd _ _ =>
      if cmd = "l7-service-usefarm-edit" then
        Except.error ⟨ConfErrCode.engineError, "edit refused"⟩
      else Except.ok "",
    fun _ => Except.ok 1, fun _ => 0, fun _ => []⟩

/-- A cache state holding one response-family collection entry for
transaction t1 under parent name f1. -/
def respCache : CacheState :=
  fun k =>
    if k = ⟨Family.tcprsp, "t1", "", "f1", none⟩ then
      some (CacheVal.all [⟨7, []⟩])
    else none

/-! ## Theorems

### Decimal formatting: round-trip and injectivity

Needed to distinguish the string identifiers the operations hand to the
engine. -/

theorem digitChar_isDigit (n : Nat) : (digitChar n).isDigit = true := by
  rcases n with _|_|_|_|_|_|_|_|_|n <;> rfl

theorem digitChar_toNat (n : Nat) (h : n < 10) : (digitChar n).toNat = 48 + n := by
  rcases n with _|_|_|_|_|_|_|_|_|_|n
  case succ.succ.succ.succ.succ.succ.succ.succ.succ.succ => exact absurd h (by omega)
  all_goals rfl

theorem natDigs_isDigit :
    ∀ fuel n c, c ∈ natDigs fuel n → c.isDigit = true := by
  intro fuel
  induction fuel with
  | zero => intro n c h; simp [natDigs] at h
  | succ f ih =>
    intro n c h
    rw [natDigs] at h
    by_cases h10 : n < 10
    · rw [if_pos h10] at h
      rw [List.mem_singleton.mp h]
      exact digitChar_isDigit n
    · rw [if_neg h10] at h
      rcases List.mem_append.mp h with h1 | h1
      · exact ih _ _ h1
      · rw [List.mem_singleton.mp h1]
        exact digitChar_isDigit (n % 10)

theorem natDigs_ne_nil (fuel n : Nat) : natDigs (fuel + 1) n ≠ [] := by
  rw [natDigs]
  by_cases h10 : n < 10
  · rw [if_pos h10]; simp
  · rw [if_neg h10]; simp

theorem foldl_digits_natDigs :
    ∀ fuel n a, n < fuel →
      List.foldl
        (fun acc c =>
          match acc with
          | none => none
          | some n => if c.isDigit then some (n * 10 + (c.toNat - 48)) else none)
        (some a) (natDigs fuel n)
      = some (a * 10 ^ (natDigs fuel n).length + n) := by
  intro fuel
  induction fuel with
  | zero => intro n a h; exact absurd h (by omega)
  | succ f ih =>
    intro n a h
    rw [natDigs]
    by_cases h10 : n < 10
    · rw [if_pos h10]
      simp [digitChar_isDigit n, digitChar_toNat n h10]
    · rw [if_neg h10]
      have hlt : n / 10 < f := by omega
      rw [List.foldl_append, ih (n / 10) a hlt]
      simp [digitChar_isDigit (n % 10), digitChar_toNat (n % 10) (Nat.mod_lt n (by omega))]
      have h1 : (a * 10 ^ (natDigs f (n / 10)).length + n / 10) * 10 + n % 10
          = a * (10 ^ (natDigs f (n / 10)).length * 10) + (n / 10 * 10 + n % 10) := by
        ring
      have h2 : n / 10 * 10 + n % 10 = n := by omega
      rw [h1, h2, ← pow_succ]

theorem digitsVal_natDigs (fuel n : Nat) (h : n < fuel) :
    digitsVal (natDigs fuel n) = some n := by
  rcases fuel with _ | f
  · exact absurd h (by omega)
  · have hf := foldl_digits_natDigs (f + 1) n 0 h
    cases hd : natDigs (f + 1) n with
    | nil => exact absurd hd (natDigs_ne_nil f n)
    | cons c cs =>
      rw [hd] at hf
      simpa [digitsVal] using hf

theorem unformatChars_formatInt (i : Int) :
    unformatChars (formatInt i).data = some i := by
  by_cases hneg : i < 0
  · rw [formatInt, if_pos hneg]
    show unformatChars ('-' :: natDigs ((-i).toNat + 1) (-i).toNat) = some i
    rw [unformatChars, if_pos rfl,
      digitsVal_natDigs ((-i).toNat + 1) (-i).toNat (by omega)]
    show some (-(((-i).toNat : Int))) = some i
    rw [Int.toNat_of_nonneg (by omega), neg_neg]
  · rw [formatInt, if_neg hneg]
    cases hd : natDigs (i.toNat + 1) i.toNat with
    | nil => exact absurd hd (natDigs_ne_nil _ _)
    | cons c cs =>
      have hcdig : c.isDigit = true := by
        refine natDigs_isDigit (i.toNat + 1) i.toNat c ?_
        rw [hd]; exact List.mem_cons_self c cs
      have hcne : ¬ c = '-' := by
        intro hc; rw [hc] at hcdig; exact absurd hcdig (by decide)
      show unformatChars (c :: cs) = some i
      rw [unformatChars, if_neg hcne, ← hd,
        digitsVal_natDigs (i.toNat + 1) i.toNat (by omega)]
      show some ((i.toNat : Int)) = some i
      rw [Int.toNat_of_nonneg (by omega)]

theorem formatInt_inj {a b : Int} (h : formatInt a = formatInt b) : a = b := by
  have ha := unformatChars_formatInt a
  rw [h, unformatChars_formatInt b] at ha
  exact (Option.some_inj.mp ha).symm

/-! ### The record parser -/

theorem parse_step_foldl (c : Client) :
    ∀ (l : List String) (acc : List RuleObj),
      l.foldl
        (fun rs b =>
          if isBlankBlock b then rs
          else
            let idStr := (splitHeaderLine b).1
            let id : Int :=
              match parseInt64 idStr with
              | some n => n
              | none => 0
            rs ++ [parseObject c b ⟨id, []⟩])
        acc
      = acc ++ (l.filter (fun b => !(isBlankBlock b))).map (inflateBlock c) := by
  intro l
  induction l with
  | nil => intro acc; simp
  | cons b l ih =>
    intro acc
    rw [List.foldl_cons, List.filter_cons]
    by_cases hb : isBlankBlock b = true
    · rw [if_pos hb, if_neg (by simp [hb]), ih]
    · rw [Bool.not_eq_true] at hb
      rw [if_neg (by simp [hb]), if_pos (by simp [hb]), ih]
      cases hpi : parseInt64 (splitHeaderLine b).1 <;>
        simp [inflateBlock, hpi]

theorem parseTCPContentRules_eq_spec (c : Client) (s : String) :
    parseTCPContentRules c s = splitInflateSpec c s := by
  unfold parseTCPContentRules splitInflateSpec
  rw [parse_step_foldl c (splitBlocks s) []]
  simp

theorem parseBackendSwitchingRules_eq_spec (c : Client) (s : String) :
    parseBackendSwitchingRules c s = splitInflateSpec c s := by
  unfold parseBackendSwitchingRules splitInflateSpec
  rw [parse_step_foldl c (splitBlocks s) []]
  simp

theorem splitInflateSpec_ids (c : Client) (s : String) :
    (splitInflateSpec c s).map (fun r => r.id)
      = ((splitBlocks s).filter (fun b => !(isBlankBlock b))).map blockID := by
  unfold splitInflateSpec
  rw [List.map_map]
  refine List.map_congr_left ?_
  intro b _
  simp [inflateBlock, parseObject, blockID]

/-- C3: for every input string the two parsers return exactly the sequence
obtained by splitting the string on blank-line boundaries, skipping the
blocks that are empty after trimming whitespace, and inflating each
remaining block in input order; the blob "1\nname a\n\n2\nname b\n\n"
yields two entities with IDs 1 and 2 in that order, and the blob "\n\n"
yields the empty collection. -/
theorem parse_is_split_skip_inflate :
    (∀ c s, parseTCPContentRules c s = splitInflateSpec c s) ∧
    (∀ c s, parseBackendSwitchingRules c s = splitInflateSpec c s) ∧
    (∀ c, (parseTCPContentRules c "1\nname a\n\n2\nname b\n\n").map
      (fun r => r.id) = [1, 2]) ∧
    (∀ c, (parseBackendSwitchingRules c "1\nname a\n\n2\nname b\n\n").map
      (fun r => r.id) = [1, 2]) ∧
    (∀ c, parseTCPContentRules c "\n\n" = []) ∧
    (∀ c, parseBackendSwitchingRules c "\n\n" = []) := by
  have hids : ∀ c, (splitInflateSpec c "1\nname a\n\n2\nname b\n\n").map
      (fun r => r.id) = [1, 2] := by
    intro c
    rw [splitInflateSpec_ids]
    decide
  have hblank : ∀ c, splitInflateSpec c "\n\n" = [] := by
    intro c
    unfold splitInflateSpec
    rw [show ((splitBlocks "\n\n").filter (fun b => !(isBlankBlock b))) = []
      from by decide]
    rfl
  refine ⟨parseTCPContentRules_eq_spec, parseBackendSwitchingRules_eq_spec,
    ?_, ?_, ?_, ?_⟩
  · intro c; rw [parseTCPContentRules_eq_spec]; exact hids c
  · intro c; rw [parseBackendSwitchingRules_eq_spec]; exact hids c
  · intro c; rw [parseTCPContentRules_eq_spec]; exact hblank c
  · intro c; rw [parseBackendSwitchingRules_eq_spec]; exact hblank c

/-- C4: both parsers are total functions into a plain collection (their Go
signatures return no error and the embedding returns a plain list for every
input): the IDs of the result are exactly the per-block header IDs, a block
whose header token is not a valid integer receives ID 0, and several zero-ID
entities can coexist in one returned collection. -/
theorem parse_total_and_malformed_header_yields_zero :
    (∀ c s, (parseTCPContentRules c s).map (fun r => r.id)
      = ((splitBlocks s).filter (fun b => !(isBlankBlock b))).map blockID) ∧
    (∀ c s, (parseBackendSwitchingRules c s).map (fun r => r.id)
      = ((splitBlocks s).filter (fun b => !(isBlankBlock b))).map blockID) ∧
    parseInt64 "x" = none ∧ blockID "x\nfoo" = 0 ∧
    (∀ c, (parseTCPContentRules c "x\nfoo\n\ny\nbar").map
      (fun r => r.id) = [0, 0]) ∧
    (∀ c, (parseBackendSwitchingRules c "x\nfoo\n\ny\nbar").map
      (fun r => r.id) = [0, 0]) := by
  have h1 : ∀ c s, (parseTCPContentRules c s).map (fun r => r.id)
      = ((splitBlocks s).filter (fun b => !(isBlankBlock b))).map blockID := by
    intro c s
    rw [parseTCPContentRules_eq_spec, splitInflateSpec_ids]
  have h2 : ∀ c s, (parseBackendSwitchingRules c s).map (fun r => r.id)
      = ((splitBlocks s).filter (fun b => !(isBlankBlock b))).map blockID := by
    intro c s
    rw [parseBackendSwitchingRules_eq_spec, splitInflateSpec_ids]
  refine ⟨h1, h2, by decide, by decide, ?_, ?_⟩
  · intro c; rw [h1]; decide
  · intro c; rw [h2]; decide

/-! ### Event-shape helpers for the read operations -/

theorem getTCPContentRules_events :
    ∀ (c : Client) (st : CacheState) (ptype pname rtype tx : String),
      ∀ ev ∈ (GetTCPContentRules c st ptype pname rtype tx).2.1,
        ev.isInvalidate = false ∧
        (∀ cmd tx2 args pl, ev = Event.engineCall cmd tx2 args pl →
          tx2 = "" ∧ pl = []) := by
  intro c st ptype pname rtype tx
  simp only [GetTCPContentRules]
  repeat' split
  all_goals simp [List.forall_mem_cons, Event.isInvalidate]
  all_goals (intro cmd tx2 args pl h1 h2 h3 h4; exact ⟨h2.symm, h4⟩)

theorem getTCPContentRule_events :
    ∀ (c : Client) (st : CacheState) (id : Int) (ptype pname rtype tx : String),
      ∀ ev ∈ (GetTCPContentRule c st id ptype pname rtype tx).2.1,
        ev.isInvalidate = false ∧
        (∀ cmd tx2 args pl, ev = Event.engineCall cmd tx2 args pl →
          tx2 = "" ∧ pl = []) := by
  intro c st id ptype pname rtype tx
  simp only [GetTCPContentRule]
  repeat' split
  all_goals simp [List.forall_mem_cons, Event.isInvalidate]
  all_goals (intro cmd tx2 args pl h1 h2 h3 h4; exact ⟨h2.symm, h4⟩)

theorem getBackendSwitchingRules_events :
    ∀ (c : Client) (st : CacheState) (frontend tx : String),
      ∀ ev ∈ (GetBackendSwitchingRules c st frontend tx).2.1,
        ev.isInvalidate = false ∧
        (∀ cmd tx2 args pl, ev = Event.engineCall cmd tx2 args pl →
          tx2 = tx ∧ pl = []) := by
  intro c st frontend tx
  simp only [GetBackendSwitchingRules]
  repeat' split
  all_goals simp [List.forall_mem_cons, Event.isInvalidate]
  all_goals (intro cmd tx2 args pl h1 h2 h3 h4; exact ⟨h2.symm, h4⟩)

theorem getBackendSwitchingRule_events :
    ∀ (c : Client) (st : CacheState) (id : Int) (frontend tx : String),
      ∀ ev ∈ (GetBackendSwitchingRule c st id frontend tx).2.1,
        ev.isInvalidate = false ∧
        (∀ cmd tx2 args pl, ev = Event.engineCall cmd tx2 args pl →
          tx2 = tx ∧ pl = []) := by
  intro c st id frontend tx
  simp only [GetBackendSwitchingRule]
  repeat' split
  all_goals simp [List.forall_mem_cons, Event.isInvalidate]
  all_goals (intro cmd tx2 args pl h1 h2 h3 h4; exact ⟨h2.symm, h4⟩)

/-- C9: on every call, the TCP content rule reads hand the engine an empty
transaction ID (the transactionID argument only drives the cache key and the
version lookup), whereas the backend switching rule reads hand the engine the
caller's transaction ID. -/
theorem tcp_reads_use_empty_engine_transaction :
    ∀ (c : Client) (st : CacheState) (id : Int)
      (parentType parentName ruleType transactionID : String),
      (∀ ev ∈ (GetTCPContentRules c st parentType parentName ruleType transactionID).2.1,
        ev.isEngine = true → ev.engineTx = some "") ∧
      (∀ ev ∈ (GetTCPContentRule c st id parentType parentName ruleType transactionID).2.1,
        ev.isEngine = true → ev.engineTx = some "") ∧
      (∀ ev ∈ (GetBackendSwitchingRules c st parentName transactionID).2.1,
        ev.isEngine = true → ev.engineTx = some transactionID) ∧
      (∀ ev ∈ (GetBackendSwitchingRule c st id parentName transactionID).2.1,
        ev.isEngine = true → ev.engineTx = some transactionID) := by
  intro c st id parentType parentName ruleType transactionID
  refine ⟨?_, ?_, ?_, ?_⟩
  · intro ev hev heng
    cases ev with
    | engineCall cmd tx2 args pl =>
      have h := (getTCPContentRules_events c st parentType parentName ruleType
        transactionID (Event.engineCall cmd tx2 args pl) hev).2 cmd tx2 args pl rfl
      rw [Event.engineTx, h.1]
    | cacheSetOne k r => exact absurd heng (by simp [Event.isEngine])
    | cacheSetAll k rs => exact absurd heng (by simp [Event.isEngine])
    | invalidate fam tx2 pn pt => exact absurd heng (by simp [Event.isEngine])
  · intro ev hev heng
    cases ev with
    | engineCall cmd tx2 args pl =>
      have h := (getTCPContentRule_events c st id parentType parentName ruleType
        transactionID (Event.engineCall cmd tx2 args pl) hev).2 cmd tx2 args pl rfl
      rw [Event.engineTx, h.1]
    | cacheSetOne k r => exact absurd heng (by simp [Event.isEngine])
    | cacheSetAll k rs => exact absurd heng (by simp [Event.isEngine])
    | invalidate fam tx2 pn pt => exact absurd heng (by simp [Event.isEngine])
  · intro ev hev heng
    cases ev with
    | engineCall cmd tx2 args pl =>
      have h := (getBackendSwitchingRules_events c st parentName
        transactionID (Event.engineCall cmd tx2 args pl) hev).2 cmd tx2 args pl rfl
      rw [Event.engineTx, h.1]
    | cacheSetOne k r => exact absurd heng (by simp [Event.isEngine])
    | cacheSetAll k rs => exact absurd heng (by simp [Event.isEngine])
    | invalidate fam tx2 pn pt => exact absurd heng (by simp [Event.isEngine])
  · intro ev hev heng
    cases ev with
    | engineCall cmd tx2 args pl =>
      have h := (getBackendSwitchingRule_events c st id parentName
        transactionID (Event.engineCall cmd tx2 args pl) hev).2 cmd tx2 args pl rfl
      rw [Event.engineTx, h.1]
    | cacheSetOne k r => exact absurd heng (by simp [Event.isEngine])
    | cacheSetAll k rs => exact absurd heng (by simp [Event.isEngine])
    | invalidate fam tx2 pn pt => exact absurd heng (by simp [Event.isEngine])

/-- Witness for C9 at a concrete call: the TCP dump is invoked with an empty
engine transaction while the backend switching dump carries the caller's. -/
theorem tcp_reads_use_empty_engine_transaction_witness :
    (Event.engineCall "l7-service-tcpreqcont-dump" "" ["f1"] []).engineTx = some "" ∧
    (Event.engineCall "l7-service-usefarm-dump" "t1" ["f1"] []).engineTx = some "t1" := by
  have h := tcp_reads_use_empty_engine_transaction disabledClient emptyCache 1
    "frontend" "f1" "request" "t1"
  exact ⟨h.1 (Event.engineCall "l7-service-tcpreqcont-dump" "" ["f1"] [])
      (by decide) (by decide),
    h.2.2.1 (Event.engineCall "l7-service-usefarm-dump" "t1" ["f1"] [])
      (by decide) (by decide)⟩

/-- C6 counterexample: with the cache disabled, a collection Get whose parent
type is not recognized performs no engine invocation at all — scope
validation rejects it first — so it is not the case that every collection Get
performs an engine invocation on each call. -/
theorem disabled_cache_engine_counterexample :
    (GetTCPContentRules disabledClient emptyCache "bogus" "f1" "request" "t1").1
      = Except.error (NewConfError ErrValidationError "Parent type bogus not recognized") ∧
    (GetTCPContentRules disabledClient emptyCache "bogus" "f1" "request" "t1").2.1 = [] := by
  decide

/-- C6 (amended): when the cache is disabled, GetBackendSwitchingRules
performs an engine invocation on every call, and GetTCPContentRules does so
whenever its scope validation passes (recognized parent type, recognized rule
type, and not response-for-frontend); in both cases the cache state is left
unchanged and no cache write occurs, so a second consecutive call for the
same scope and transaction — run on the state the first call left behind —
performs its own engine invocation and returns the identical result. -/
theorem disabled_cache_gets_always_invoke_engine :
    ∀ (c : Client) (st : CacheState)
      (parentType parentName ruleType frontend transactionID : String),
      c.cacheEnabled = false →
      ((GetBackendSwitchingRules c st frontend transactionID).2.2 = st ∧
        GetBackendSwitchingRules c
            ((GetBackendSwitchingRules c st frontend transactionID).2.2)
            frontend transactionID
          = GetBackendSwitchingRules c st frontend transactionID ∧
        (∃ ev ∈ (GetBackendSwitchingRules c st frontend transactionID).2.1,
          ev.isEngine = true) ∧
        (∀ ev ∈ (GetBackendSwitchingRules c st frontend transactionID).2.1,
          ev.isWrite = false)) ∧
      (typeToLbctlType parentType ≠ "" →
        (ruleType = "request" ∨ (ruleType = "response" ∧ parentType ≠ "frontend")) →
        ((GetTCPContentRules c st parentType parentName ruleType transactionID).2.2 = st ∧
          GetTCPContentRules c
              ((GetTCPContentRules c st parentType parentName ruleType transactionID).2.2)
              parentType parentName ruleType transactionID
            = GetTCPContentRules c st parentType parentName ruleType transactionID ∧
          (∃ ev ∈ (GetTCPContentRules c st parentType parentName ruleType transactionID).2.1,
            ev.isEngine = true) ∧
          (∀ ev ∈ (GetTCPContentRules c st parentType parentName ruleType transactionID).2.1,
            ev.isWrite = false))) := by
  intro c st parentType parentName ruleType frontend transactionID hdis
  constructor
  · have hfix : (GetBackendSwitchingRules c st frontend transactionID).2.2 = st := by
      simp only [GetBackendSwitchingRules, hdis, Bool.false_eq_true, if_false]
      repeat' split
      all_goals rfl
    refine ⟨hfix, by rw [hfix], ?_, ?_⟩
    · simp only [GetBackendSwitchingRules, hdis, Bool.false_eq_true, if_false]
      repeat' split
      all_goals exact ⟨_, List.mem_cons_self _ _, rfl⟩
    · simp only [GetBackendSwitchingRules, hdis, Bool.false_eq_true, if_false]
      repeat' split
      all_goals simp [List.forall_mem_cons, Event.isWrite]
  · intro hpt hrt
    rcases hrt with hreq | ⟨hresp, hnf⟩
    · subst hreq
      have hfix : (GetTCPContentRules c st parentType parentName "request"
          transactionID).2.2 = st := by
        simp [GetTCPContentRules, hdis, hpt]
        repeat' split
        all_goals rfl
      refine ⟨hfix, by rw [hfix], ?_, ?_⟩
      · simp [GetTCPContentRules, hdis, hpt]
        repeat' split
        all_goals exact ⟨_, List.mem_cons_self _ _, rfl⟩
      · simp [GetTCPContentRules, hdis, hpt]
        repeat' split
        all_goals simp [List.forall_mem_cons, Event.isWrite]
    · subst hresp
      have hfix : (GetTCPContentRules c st parentType parentName "response"
          transactionID).2.2 = st := by
        simp [GetTCPContentRules, hdis, hpt, hnf]
        repeat' split
        all_goals rfl
      refine ⟨hfix, by rw [hfix], ?_, ?_⟩
      · simp [GetTCPContentRules, hdis, hpt, hnf]
        repeat' split
        all_goals exact ⟨_, List.mem_cons_self _ _, rfl⟩
      · simp [GetTCPContentRules, hdis, hpt, hnf]
        repeat' split
        all_goals simp [List.forall_mem_cons, Event.isWrite]

/-- Witness for C6 at a concrete disabled-cache call: the cache is untouched
and the dump engine invocation occurs. -/
theorem disabled_cache_gets_always_invoke_engine_witness :
    (GetTCPContentRules disabledClient emptyCache "backend" "b1" "response" "t1").2.2
      = emptyCache ∧
    (∃ ev ∈ (GetTCPContentRules disabledClient emptyCache "backend" "b1" "response" "t1").2.1,
      ev.isEngine = true) ∧
    (GetBackendSwitchingRules disabledClient emptyCache "f1" "t1").2.2 = emptyCache := by
  have h := disabled_cache_gets_always_invoke_engine disabledClient emptyCache
    "backend" "b1" "response" "f1" "t1" rfl
  have h2 := h.2 (by decide) (Or.inr ⟨rfl, by decide⟩)
  exact ⟨h2.1, h2.2.2.1, h.1.1⟩

/-- C1 counterexample: with the cache enabled and a response-family cache
entry present for the scope, GetTCPContentRules for the response/frontend
combination performs the cache lookup and returns the cached collection
successfully instead of failing with a ValidationError — the cache is
consulted before any scope validation. -/
theorem response_frontend_counterexample :
    (GetTCPContentRules okClient respCache "frontend" "f1" "response" "t1").1
      = Except.ok ⟨0, [⟨7, []⟩]⟩ ∧
    (GetTCPContentRules okClient respCache "frontend" "f1" "response" "t1").2.1
      = [] := by
  decide

/-- C1 (amended): for the response/frontend combination the mutating TCP
content rule operations fail with a ValidationError before any cache or
engine interaction (no event, cache unchanged); the two read operations
consult the cache first when it is enabled — on a cache hit they succeed from
the cache, and otherwise they fail with the ValidationError — and in either
case produce no engine invocation and no cache write, leaving the cache
unchanged. -/
theorem response_frontend_rejected :
    ∀ (c : Client) (st : CacheState) (id : Int)
      (parentName transactionID : String) (data : RuleObj) (version : Int),
      ((DeleteTCPContentRule c st id "frontend" parentName "response"
          transactionID version).1
          = Except.error (NewConfError ErrValidationError
            "Rule type cannot be response for frontend parent") ∧
        (DeleteTCPContentRule c st id "frontend" parentName "response"
          transactionID version).2.1 = [] ∧
        (DeleteTCPContentRule c st id "frontend" parentName "response"
          transactionID version).2.2 = st) ∧
      ((∃ e, (CreateTCPContentRule c st "frontend" parentName "response" data
          transactionID version).1 = Except.error e ∧ e.code = ErrValidationError) ∧
        (CreateTCPContentRule c st "frontend" parentName "response" data
          transactionID version).2.1 = [] ∧
        (CreateTCPContentRule c st "frontend" parentName "response" data
          transactionID version).2.2 = st) ∧
      ((∃ e, (EditTCPContentRule c st id "frontend" parentName "response" data
          transactionID version).1 = Except.error e ∧ e.code = ErrValidationError) ∧
        (EditTCPContentRule c st id "frontend" parentName "response" data
          transactionID version).2.1 = [] ∧
        (EditTCPContentRule c st id "frontend" parentName "response" data
          transactionID version).2.2 = st) ∧
      ((GetTCPContentRules c st "frontend" parentName "response" transactionID).2.1
          = [] ∧
        (GetTCPContentRules c st "frontend" parentName "response" transactionID).2.2
          = st ∧
        ((c.cacheEnabled = true ∧ ∃ rs,
            cacheGetAll st ⟨Family.tcprsp, transactionID, "", parentName, none⟩
              = some rs ∧
            (GetTCPContentRules c st "frontend" parentName "response" transactionID).1
              = Except.ok ⟨c.cacheVersionGet transactionID, rs⟩) ∨
          (GetTCPContentRules c st "frontend" parentName "response" transactionID).1
            = Except.error (NewConfError ErrValidationError
              "Rule type cannot be response for frontend parent"))) ∧
      ((GetTCPContentRule c st id "frontend" parentName "response" transactionID).2.1
          = [] ∧
        (GetTCPContentRule c st id "frontend" parentName "response" transactionID).2.2
          = st ∧
        ((c.cacheEnabled = true ∧ ∃ r,
            cacheGetOne st ⟨Family.tcprsp, transactionID, "", parentName, some id⟩
              = some r ∧
            (GetTCPContentRule c st id "frontend" parentName "response" transactionID).1
              = Except.ok ⟨c.cacheVersionGet transactionID, r⟩) ∨
          (GetTCPContentRule c st id "frontend" parentName "response" transactionID).1
            = Except.error (NewConfError ErrValidationError
              "Rule type cannot be response for frontend parent"))) := by
  intro c st id parentName transactionID data version
  refine ⟨?_, ?_, ?_, ?_, ?_⟩
  · simp [DeleteTCPContentRule, typeToLbctlType]
  · simp only [CreateTCPContentRule]
    split
    · rename_i e heq
      refine ⟨⟨e, rfl, ?_⟩, rfl, rfl⟩
      split at heq
      · split at heq
        · rename_i msg hmsg
          cases heq
          rfl
        · cases heq
      · cases heq
    · simp [typeToLbctlType]
      rfl
  · simp only [EditTCPContentRule]
    split
    · rename_i e heq
      refine ⟨⟨e, rfl, ?_⟩, rfl, rfl⟩
      split at heq
      · split at heq
        · rename_i msg hmsg
          cases heq
          rfl
        · cases heq
      · cases heq
    · simp [typeToLbctlType]
      rfl
  · simp only [GetTCPContentRules]
    split
    · rename_i rs heq
      refine ⟨rfl, rfl, Or.inl ?_⟩
      split at heq
      · rename_i hen
        simp only [show ("response" = "request") = False from by simp,
          if_false, if_pos rfl] at heq
        exact ⟨hen, rs, heq, rfl⟩
      · cases heq
    · simp [typeToLbctlType]
  · simp only [GetTCPContentRule]
    split
    · rename_i r heq
      refine ⟨rfl, rfl, Or.inl ?_⟩
      split at heq
      · rename_i hen
        simp only [show ("response" = "request") = False from by simp,
          if_false, if_pos rfl] at heq
        exact ⟨hen, r, heq, rfl⟩
      · cases heq
    · simp [typeToLbctlType]

theorem checkTransactionOrVersion_bad (transactionID : String) (version : Int)
    (h : (transactionID = "" ∧ version = 0) ∨ (transactionID ≠ "" ∧ version ≠ 0)) :
    ∃ e, checkTransactionOrVersion transactionID version = some e ∧
      e.code = ErrValidationError := by
  rcases h with ⟨h1, h2⟩ | ⟨h1, h2⟩
  · refine ⟨NewConfError ErrValidationError
      "Version or transactionID not specified, please specify only one", ?_, rfl⟩
    rw [checkTransactionOrVersion, if_neg (by simp [h1]), if_pos ⟨h1, h2⟩]
  · refine ⟨NewConfError ErrValidationError
      "Both transactionID and version specified, please specify only one", ?_, rfl⟩
    rw [checkTransactionOrVersion, if_pos ⟨h1, h2⟩]

/-- C2 counterexample: an edit supplied with both a transaction ID and an
explicit version is not rejected before the engine is invoked — the pre-image
fetch invokes the engine first, and when that engine call fails the operation
returns the engine error, not a ValidationError. -/
theorem concurrency_token_counterexample :
    (EditBackendSwitchingRule downClient emptyCache 1 "f" ⟨1, []⟩ "t" 5).1
      = Except.error ⟨ConfErrCode.engineError, "engine down"⟩ ∧
    (∃ ev ∈ (EditBackendSwitchingRule downClient emptyCache 1 "f" ⟨1, []⟩ "t" 5).2.1,
      ev.isEngine = true) ∧
    ConfErrCode.engineError ≠ ErrValidationError := by
  refine ⟨by decide, ⟨Event.engineCall "l7-service-usefarm-show" "t"
    ["f", formatInt 1] [], by decide, by decide⟩, by decide⟩

/-- C2 (amended): supplying neither or both of the transaction ID and the
explicit version makes every mutating operation fail.  Create and Delete
fail with a ValidationError before any engine invocation.  Edit fails
without ever invoking the engine edit (no engine event carrying a payload
occurs, and no invalidation), but its pre-image Get-one runs first: the
engine show may be invoked, a failing pre-fetch error is returned instead,
and only when the pre-fetch succeeds is the failure the token
ValidationError. -/
theorem concurrency_token_rejected :
    ∀ (c : Client) (st : CacheState) (id : Int)
      (parentType parentName ruleType frontend transactionID : String)
      (data : RuleObj) (version : Int),
      ((transactionID = "" ∧ version = 0) ∨ (transactionID ≠ "" ∧ version ≠ 0)) →
      ((∃ e, (CreateTCPContentRule c st parentType parentName ruleType data
          transactionID version).1 = Except.error e ∧ e.code = ErrValidationError) ∧
        (∀ ev ∈ (CreateTCPContentRule c st parentType parentName ruleType data
          transactionID version).2.1, ev.isEngine = false)) ∧
      ((∃ e, (DeleteTCPContentRule c st id parentType parentName ruleType
          transactionID version).1 = Except.error e ∧ e.code = ErrValidationError) ∧
        (∀ ev ∈ (DeleteTCPContentRule c st id parentType parentName ruleType
          transactionID version).2.1, ev.isEngine = false)) ∧
      ((∃ e, (CreateBackendSwitchingRule c st frontend data transactionID
          version).1 = Except.error e ∧ e.code = ErrValidationError) ∧
        (∀ ev ∈ (CreateBackendSwitchingRule c st frontend data transactionID
          version).2.1, ev.isEngine = false)) ∧
      ((∃ e, (DeleteBackendSwitchingRule c st id frontend transactionID
          version).1 = Except.error e ∧ e.code = ErrValidationError) ∧
        (∀ ev ∈ (DeleteBackendSwitchingRule c st id frontend transactionID
          version).2.1, ev.isEngine = false)) ∧
      ((∃ e, (EditTCPContentRule c st id parentType parentName ruleType data
          transactionID version).1 = Except.error e) ∧
        (∀ ev ∈ (EditTCPContentRule c st id parentType parentName ruleType data
          transactionID version).2.1, ev.isInvalidate = false ∧
          (∀ cmd tx2 args pl, ev = Event.engineCall cmd tx2 args pl → pl = [])) ∧
        (∀ g gevs gst, GetTCPContentRule c st id parentType parentName ruleType
            transactionID = (Except.ok g, gevs, gst) →
          ∃ e, (EditTCPContentRule c st id parentType parentName ruleType data
            transactionID version).1 = Except.error e ∧
            e.code = ErrValidationError)) ∧
      ((∃ e, (EditBackendSwitchingRule c st id frontend data transactionID
          version).1 = Except.error e) ∧
        (∀ ev ∈ (EditBackendSwitchingRule c st id frontend data transactionID
          version).2.1, ev.isInvalidate = false ∧
          (∀ cmd tx2 args pl, ev = Event.engineCall cmd tx2 args pl → pl = [])) ∧
        (∀ g gevs gst, GetBackendSwitchingRule c st id frontend transactionID
            = (Except.ok g, gevs, gst) →
          ∃ e, (EditBackendSwitchingRule c st id frontend data transactionID
            version).1 = Except.error e ∧ e.code = ErrValidationError)) := by
  intro c st id parentType parentName ruleType frontend transactionID data version hbad
  obtain ⟨e0, hk, hcode⟩ := checkTransactionOrVersion_bad transactionID version hbad
  refine ⟨?_, ?_, ?_, ?_, ?_, ?_⟩
  · simp only [CreateTCPContentRule, createObject, hk]
    split
    · rename_i e1 heq
      refine ⟨⟨e1, rfl, ?_⟩, by simp⟩
      split at heq
      · split at heq
        · cases heq; rfl
        · cases heq
      · cases heq
    · repeat' split
      all_goals first
        | exact ⟨⟨e0, rfl, hcode⟩, by simp⟩
        | exact ⟨⟨_, rfl, rfl⟩, by simp⟩
  · simp only [DeleteTCPContentRule, deleteObject, hk]
    repeat' split
    all_goals first
      | exact ⟨⟨e0, rfl, hcode⟩, by simp⟩
      | exact ⟨⟨_, rfl, rfl⟩, by simp⟩
  · simp only [CreateBackendSwitchingRule, createObject, hk]
    split
    · rename_i e1 heq
      refine ⟨⟨e1, rfl, ?_⟩, by simp⟩
      split at heq
      · split at heq
        · cases heq; rfl
        · cases heq
      · cases heq
    · exact ⟨⟨e0, rfl, hcode⟩, by simp⟩
  · simp only [DeleteBackendSwitchingRule, deleteObject, hk]
    exact ⟨⟨e0, rfl, hcode⟩, by simp⟩
  · simp only [EditTCPContentRule, editObject, hk]
    split
    · rename_i e1 heq
      have hc1 : e1.code = ErrValidationError := by
        split at heq
        · split at heq
          · cases heq; rfl
          · cases heq
        · cases heq
      exact ⟨⟨e1, rfl⟩, by simp, fun g gevs gst _ => ⟨e1, rfl, hc1⟩⟩
    · split
      · exact ⟨⟨_, rfl⟩, by simp, fun g gevs gst _ => ⟨_, rfl, rfl⟩⟩
      · repeat' split
        all_goals try exact ⟨⟨_, rfl⟩, by simp, fun g gevs gst _ => ⟨_, rfl, rfl⟩⟩
        all_goals rename_i hget
        · refine ⟨⟨_, rfl⟩, ?_, ?_⟩
          · intro ev hev
            have h := getTCPContentRule_events c st id parentType parentName
              ruleType transactionID ev (by rw [hget]; exact hev)
            exact ⟨h.1, fun cmd tx2 a p hEv => (h.2 cmd tx2 a p hEv).2⟩
          · intro g gevs gst hok
            rw [hget] at hok
            simp at hok
        · refine ⟨⟨e0, by simp⟩, ?_, ?_⟩
          · intro ev hev
            simp only [List.append_nil] at hev
            have h := getTCPContentRule_events c st id parentType parentName
              ruleType transactionID ev (by rw [hget]; exact hev)
            exact ⟨h.1, fun cmd tx2 a p hEv => (h.2 cmd tx2 a p hEv).2⟩
          · intro g gevs gst hok
            exact ⟨e0, by simp, hcode⟩
        · refine ⟨⟨_, rfl⟩, ?_, ?_⟩
          · intro ev hev
            have h := getTCPContentRule_events c st id parentType parentName
              ruleType transactionID ev (by rw [hget]; exact hev)
            exact ⟨h.1, fun cmd tx2 a p hEv => (h.2 cmd tx2 a p hEv).2⟩
          · intro g gevs gst hok
            rw [hget] at hok
            simp at hok
        · refine ⟨⟨e0, by simp⟩, ?_, ?_⟩
          · intro ev hev
            simp only [List.append_nil] at hev
            have h := getTCPContentRule_events c st id parentType parentName
              ruleType transactionID ev (by rw [hget]; exact hev)
            exact ⟨h.1, fun cmd tx2 a p hEv => (h.2 cmd tx2 a p hEv).2⟩
          · intro g gevs gst hok
            exact ⟨e0, by simp, hcode⟩
  · simp only [EditBackendSwitchingRule, editObject, hk]
    split
    · rename_i e1 heq
      have hc1 : e1.code = ErrValidationError := by
        split at heq
        · split at heq
          · cases heq; rfl
          · cases heq
        · cases heq
      exact ⟨⟨e1, rfl⟩, by simp, fun g gevs gst _ => ⟨e1, rfl, hc1⟩⟩
    · split
      all_goals rename_i hget
      · refine ⟨⟨_, rfl⟩, ?_, ?_⟩
        · intro ev hev
          have h := getBackendSwitchingRule_events c st id frontend
            transactionID ev (by rw [hget]; exact hev)
          exact ⟨h.1, fun cmd tx2 a p hEv => (h.2 cmd tx2 a p hEv).2⟩
        · intro g gevs gst hok
          rw [hget] at hok
          simp at hok
      · refine ⟨⟨e0, by simp⟩, ?_, ?_⟩
        · intro ev hev
          simp only [List.append_nil] at hev
          have h := getBackendSwitchingRule_events c st id frontend
            transactionID ev (by rw [hget]; exact hev)
          exact ⟨h.1, fun cmd tx2 a p hEv => (h.2 cmd tx2 a p hEv).2⟩
        · intro g gevs gst hok
          exact ⟨e0, by simp, hcode⟩

/-- Witness for C2 at a concrete call supplying neither token: the create is
rejected with a ValidationError. -/
theorem concurrency_token_rejected_witness :
    ∃ e, (CreateBackendSwitchingRule okClient emptyCache "f1" ⟨1, []⟩ "" 0).1
      = Except.error e ∧ e.code = ErrValidationError := by
  exact (concurrency_token_rejected okClient emptyCache 1 "frontend" "f1"
    "request" "f1" "" ⟨1, []⟩ 0 (Or.inl ⟨rfl, rfl⟩)).2.2.1.1

theorem createObject_no_invalidate (c : Client)
    (objID rType parentName lbctlType : String) (data : RuleObj)
    (transactionID : String) (version : Int) :
    ∀ ev ∈ (createObject c objID rType parentName lbctlType data
      transactionID version).2, ev.isInvalidate = false := by
  simp only [createObject]
  repeat' split
  all_goals simp [Event.isInvalidate]

theorem deleteObject_no_invalidate (c : Client)
    (objID rType parentName lbctlType : String)
    (transactionID : String) (version : Int) :
    ∀ ev ∈ (deleteObject c objID rType parentName lbctlType
      transactionID version).2, ev.isInvalidate = false := by
  simp only [deleteObject]
  repeat' split
  all_goals simp [Event.isInvalidate]

theorem editObject_no_invalidate (c : Client)
    (objID rType parentName lbctlType : String) (data ondisk : RuleObj)
    (transactionID : String) (version : Int) :
    ∀ ev ∈ (editObject c objID rType parentName lbctlType data ondisk
      transactionID version).2, ev.isInvalidate = false := by
  simp only [editObject]
  repeat' split
  all_goals simp [Event.isInvalidate]

theorem invProps_error (cEnabled : Bool) (evs : List Event) (e : ConfError)
    (tx name : String)
    (hno : ∀ ev ∈ evs, ev.isInvalidate = false) :
    ((∃ ev ∈ evs, ev.isInvalidate = true) ↔
      ((Except.error e : Except ConfError Unit) = Except.ok () ∧
        cEnabled = true)) ∧
    (∀ ev ∈ evs, ∀ fam tx2 pn pt, ev = Event.invalidate fam tx2 pn pt →
      tx2 = tx ∧ pn = name) := by
  constructor
  · constructor
    · rintro ⟨ev, hev, hinv⟩
      rw [hno ev hev] at hinv
      simp at hinv
    · rintro ⟨h, _⟩
      simp at h
  · intro ev hev fam tx2 pn pt hEv
    have h := hno ev hev
    rw [hEv] at h
    simp [Event.isInvalidate] at h

theorem invProps_ok_enabled (cEnabled : Bool) (hen : cEnabled = true)
    (evs : List Event) (fam : Family) (tx name : String) (pt : Option String)
    (hno : ∀ ev ∈ evs, ev.isInvalidate = false) :
    ((∃ ev ∈ evs ++ [Event.invalidate fam tx name pt], ev.isInvalidate = true) ↔
      ((Except.ok () : Except ConfError Unit) = Except.ok () ∧
        cEnabled = true)) ∧
    (∀ ev ∈ evs ++ [Event.invalidate fam tx name pt], ∀ fam2 tx2 pn2 pt2,
      ev = Event.invalidate fam2 tx2 pn2 pt2 → tx2 = tx ∧ pn2 = name) := by
  constructor
  · exact iff_of_true ⟨Event.invalidate fam tx name pt, by simp, rfl⟩ ⟨rfl, hen⟩
  · intro ev hev fam2 tx2 pn2 pt2 hEv
    subst hEv
    rcases List.mem_append.mp hev with h1 | h1
    · have h := hno _ h1
      simp [Event.isInvalidate] at h
    · simp at h1
      exact ⟨h1.2.1, h1.2.2.1⟩

theorem invProps_ok_disabled (cEnabled : Bool) (hen : ¬cEnabled = true)
    (evs : List Event) (tx name : String)
    (hno : ∀ ev ∈ evs, ev.isInvalidate = false) :
    ((∃ ev ∈ evs, ev.isInvalidate = true) ↔
      ((Except.ok () : Except ConfError Unit) = Except.ok () ∧
        cEnabled = true)) ∧
    (∀ ev ∈ evs, ∀ fam tx2 pn pt, ev = Event.invalidate fam tx2 pn pt →
      tx2 = tx ∧ pn = name) := by
  constructor
  · constructor
    · rintro ⟨ev, hev, hinv⟩
      rw [hno ev hev] at hinv
      simp at hinv
    · rintro ⟨_, h⟩
      exact absurd h hen
  · intro ev hev fam tx2 pn pt hEv
    have h := hno ev hev
    rw [hEv] at h
    simp [Event.isInvalidate] at h

/-- C5 counterexample: an edit whose engine edit call fails does not leave
the cache state unchanged — its pre-image fetch has already stored the
fetched entity in the cache — even though the operation returns the engine
error and performs no invalidation. -/
theorem invalidation_iff_success_counterexample :
    (EditBackendSwitchingRule editFailClient emptyCache 1 "f" ⟨1, []⟩ "t" 0).1
      = Except.error ⟨ConfErrCode.engineError, "edit refused"⟩ ∧
    (EditBackendSwitchingRule editFailClient emptyCache 1 "f" ⟨1, []⟩ "t" 0).2.2
      ⟨Family.bckswitch, "t", "", "f", some 1⟩ = some (CacheVal.one ⟨1, []⟩) ∧
    emptyCache ⟨Family.bckswitch, "t", "", "f", some 1⟩ = none := by
  decide

set_option maxHeartbeats 1600000 in
/-- C5 (amended): for every mutating operation, a scope invalidation happens
exactly when the operation succeeds (which requires the engine call to
succeed) and the cache is enabled, and every invalidation targets the call's
transaction and parent name; when a Create or Delete fails, the cache state
is completely unchanged.  (A failing Edit performs no invalidation either,
but its pre-image fetch may already have added a cache entry, so its cache
state is not necessarily unchanged.) -/
theorem invalidation_iff_engine_success :
    ∀ (c : Client) (st : CacheState) (id : Int)
      (parentType parentName ruleType frontend transactionID : String)
      (data : RuleObj) (version : Int),
      (((∃ ev ∈ (CreateTCPContentRule c st parentType parentName ruleType data
            transactionID version).2.1, ev.isInvalidate = true) ↔
          ((CreateTCPContentRule c st parentType parentName ruleType data
            transactionID version).1 = Except.ok () ∧ c.cacheEnabled = true)) ∧
        (∀ ev ∈ (CreateTCPContentRule c st parentType parentName ruleType data
            transactionID version).2.1, ∀ fam tx2 pn pt,
          ev = Event.invalidate fam tx2 pn pt →
            tx2 = transactionID ∧ pn = parentName) ∧
        (∀ e, (CreateTCPContentRule c st parentType parentName ruleType data
            transactionID version).1 = Except.error e →
          ∀ k, (CreateTCPContentRule c st parentType parentName ruleType data
            transactionID version).2.2 k = st k)) ∧
      (((∃ ev ∈ (DeleteTCPContentRule c st id parentType parentName ruleType
            transactionID version).2.1, ev.isInvalidate = true) ↔
          ((DeleteTCPContentRule c st id parentType parentName ruleType
            transactionID version).1 = Except.ok () ∧ c.cacheEnabled = true)) ∧
        (∀ ev ∈ (DeleteTCPContentRule c st id parentType parentName ruleType
            transactionID version).2.1, ∀ fam tx2 pn pt,
          ev = Event.invalidate fam tx2 pn pt →
            tx2 = transactionID ∧ pn = parentName) ∧
        (∀ e, (DeleteTCPContentRule c st id parentType parentName ruleType
            transactionID version).1 = Except.error e →
          ∀ k, (DeleteTCPContentRule c st id parentType parentName ruleType
            transactionID version).2.2 k = st k)) ∧
      (((∃ ev ∈ (CreateBackendSwitchingRule c st frontend data transactionID
            version).2.1, ev.isInvalidate = true) ↔
          ((CreateBackendSwitchingRule c st frontend data transactionID
            version).1 = Except.ok () ∧ c.cacheEnabled = true)) ∧
        (∀ ev ∈ (CreateBackendSwitchingRule c st frontend data transactionID
            version).2.1, ∀ fam tx2 pn pt,
          ev = Event.invalidate fam tx2 pn pt →
            tx2 = transactionID ∧ pn = frontend) ∧
        (∀ e, (CreateBackendSwitchingRule c st frontend data transactionID
            version).1 = Except.error e →
          ∀ k, (CreateBackendSwitchingRule c st frontend data transactionID
            version).2.2 k = st k)) ∧
      (((∃ ev ∈ (DeleteBackendSwitchingRule c st id frontend transactionID
            version).2.1, ev.isInvalidate = true) ↔
          ((DeleteBackendSwitchingRule c st id frontend transactionID
            version).1 = Except.ok () ∧ c.cacheEnabled = true)) ∧
        (∀ ev ∈ (DeleteBackendSwitchingRule c st id frontend transactionID
            version).2.1, ∀ fam tx2 pn pt,
          ev = Event.invalidate fam tx2 pn pt →
            tx2 = transactionID ∧ pn = frontend) ∧
        (∀ e, (DeleteBackendSwitchingRule c st id frontend transactionID
            version).1 = Except.error e →
          ∀ k, (DeleteBackendSwitchingRule c st id frontend transactionID
            version).2.2 k = st k)) ∧
      (((∃ ev ∈ (EditTCPContentRule c st id parentType parentName ruleType data
            transactionID version).2.1, ev.isInvalidate = true) ↔
          ((EditTCPContentRule c st id parentType parentName ruleType data
            transactionID version).1 = Except.ok () ∧ c.cacheEnabled = true)) ∧
        (∀ ev ∈ (EditTCPContentRule c st id parentType parentName ruleType data
            transactionID version).2.1, ∀ fam tx2 pn pt,
          ev = Event.invalidate fam tx2 pn pt →
            tx2 = transactionID ∧ pn = parentName)) ∧
      (((∃ ev ∈ (EditBackendSwitchingRule c st id frontend data transactionID
            version).2.1, ev.isInvalidate = true) ↔
          ((EditBackendSwitchingRule c st id frontend data transactionID
            version).1 = Except.ok () ∧ c.cacheEnabled = true)) ∧
        (∀ ev ∈ (EditBackendSwitchingRule c st id frontend data transactionID
            version).2.1, ∀ fam tx2 pn pt,
          ev = Event.invalidate fam tx2 pn pt →
            tx2 = transactionID ∧ pn = frontend)) := by
  intro c st id parentType parentName ruleType frontend transactionID data version
  refine ⟨?_, ?_, ?_, ?_, ?_, ?_⟩
  · simp only [CreateTCPContentRule]
    split
    · rename_i e1 heq
      have h := invProps_error c.cacheEnabled [] e1 transactionID parentName (fun ev hev => absurd hev (List.not_mem_nil ev))
      exact ⟨h.1, h.2, by simp⟩
    · split
      · split
        · have h := invProps_error c.cacheEnabled [] (NewConfError ErrValidationError
            ("Parent type " ++ parentType ++ " not recognized")) transactionID
            parentName (fun ev hev => absurd hev (List.not_mem_nil ev))
          exact ⟨h.1, h.2, by simp⟩
        · rcases hco : createObject c (formatInt data.id) "tcpreqcont" parentName
            (typeToLbctlType parentType) data transactionID version with ⟨r0, evs0⟩
          have hno : ∀ ev ∈ evs0, ev.isInvalidate = false := fun ev hev =>
            createObject_no_invalidate c (formatInt data.id) "tcpreqcont" parentName
              (typeToLbctlType parentType) data transactionID version ev
              (by rw [hco]; exact hev)
          rcases r0 with e0 | u0
          · simp only [hco]
            have h := invProps_error c.cacheEnabled evs0 e0 transactionID parentName hno
            exact ⟨h.1, h.2, by simp⟩
          · simp only [hco]
            by_cases hen : c.cacheEnabled = true
            · rw [if_pos hen]
              have h := invProps_ok_enabled c.cacheEnabled hen evs0 Family.tcpreq
                transactionID parentName (some parentType) hno
              exact ⟨h.1, h.2, by simp⟩
            · rw [if_neg hen]
              have h := invProps_ok_disabled c.cacheEnabled hen evs0 transactionID
                parentName hno
              exact ⟨h.1, h.2, by simp⟩
      · split
        · split
          · have h := invProps_error c.cacheEnabled [] (NewConfError ErrValidationError
              "Rule type cannot be response for frontend parent") transactionID
              parentName (fun ev hev => absurd hev (List.not_mem_nil ev))
            exact ⟨h.1, h.2, by simp⟩
          · split
            · have h := invProps_error c.cacheEnabled [] (NewConfError ErrValidationError
                ("Parent type " ++ parentType ++ " not recognized")) transactionID
                parentName (fun ev hev => absurd hev (List.not_mem_nil ev))
              exact ⟨h.1, h.2, by simp⟩
            · rcases hco : createObject c (formatInt data.id) "tcprspcont" parentName
                (typeToLbctlType parentType) data transactionID version with ⟨r0, evs0⟩
              have hno : ∀ ev ∈ evs0, ev.isInvalidate = false := fun ev hev =>
                createObject_no_invalidate c (formatInt data.id) "tcprspcont" parentName
                  (typeToLbctlType parentType) data transactionID version ev
                  (by rw [hco]; exact hev)
              rcases r0 with e0 | u0
              · simp only [hco]
                have h := invProps_error c.cacheEnabled evs0 e0 transactionID parentName hno
                exact ⟨h.1, h.2, by simp⟩
              · simp only [hco]
                by_cases hen : c.cacheEnabled = true
                · rw [if_pos hen]
                  have h := invProps_ok_enabled c.cacheEnabled hen evs0 Family.tcprsp
                    transactionID parentName none hno
                  exact ⟨h.1, h.2, by simp⟩
                · rw [if_neg hen]
                  have h := invProps_ok_disabled c.cacheEnabled hen evs0 transactionID
                    parentName hno
                  exact ⟨h.1, h.2, by simp⟩
        · have h := invProps_error c.cacheEnabled [] (NewConfError ErrValidationError
            ("Rule type " ++ ruleType ++ " not recognized")) transactionID
            parentName (fun ev hev => absurd hev (List.not_mem_nil ev))
          exact ⟨h.1, h.2, by simp⟩
  · simp only [DeleteTCPContentRule]
    split
    · have h := invProps_error c.cacheEnabled [] (NewConfError ErrValidationError
        ("Parent type " ++ parentType ++ " not recognized")) transactionID
        parentName (fun ev hev => absurd hev (List.not_mem_nil ev))
      exact ⟨h.1, h.2, by simp⟩
    · split
      · rcases hco : deleteObject c (formatInt id) "tcpreqcont" parentName
          (typeToLbctlType parentType) transactionID version with ⟨r0, evs0⟩
        have hno : ∀ ev ∈ evs0, ev.isInvalidate = false := fun ev hev =>
          deleteObject_no_invalidate c (formatInt id) "tcpreqcont" parentName
            (typeToLbctlType parentType) transactionID version ev
            (by rw [hco]; exact hev)
        rcases r0 with e0 | u0
        · simp only [hco]
          have h := invProps_error c.cacheEnabled evs0 e0 transactionID parentName hno
          exact ⟨h.1, h.2, by simp⟩
        · simp only [hco]
          by_cases hen : c.cacheEnabled = true
          · rw [if_pos hen]
            have h := invProps_ok_enabled c.cacheEnabled hen evs0 Family.tcpreq
              transactionID parentName (some parentType) hno
            exact ⟨h.1, h.2, by simp⟩
          · rw [if_neg hen]
            have h := invProps_ok_disabled c.cacheEnabled hen evs0 transactionID
              parentName hno
            exact ⟨h.1, h.2, by simp⟩
      · split
        · split
          · have h := invProps_error c.cacheEnabled [] (NewConfError ErrValidationError
              "Rule type cannot be response for frontend parent") transactionID
              parentName (fun ev hev => absurd hev (List.not_mem_nil ev))
            exact ⟨h.1, h.2, by simp⟩
          · rcases hco : deleteObject c (formatInt id) "tcprspcont" parentName
              (typeToLbctlType parentType) transactionID version with ⟨r0, evs0⟩
            have hno : ∀ ev ∈ evs0, ev.isInvalidate = false := fun ev hev =>
              deleteObject_no_invalidate c (formatInt id) "tcprspcont" parentName
                (typeToLbctlType parentType) transactionID version ev
                (by rw [hco]; exact hev)
            rcases r0 with e0 | u0
            · simp only [hco]
              have h := invProps_error c.cacheEnabled evs0 e0 transactionID parentName hno
              exact ⟨h.1, h.2, by simp⟩
            · simp only [hco]
              by_cases hen : c.cacheEnabled = true
              · rw [if_pos hen]
                have h := invProps_ok_enabled c.cacheEnabled hen evs0 Family.tcprsp
                  transactionID parentName none hno
                exact ⟨h.1, h.2, by simp⟩
              · rw [if_neg hen]
                have h := invProps_ok_disabled c.cacheEnabled hen evs0 transactionID
                  parentName hno
                exact ⟨h.1, h.2, by simp⟩
        · have h := invProps_error c.cacheEnabled [] (NewConfError ErrValidationError
            ("Rule type " ++ ruleType ++ " not recognized")) transactionID
            parentName (fun ev hev => absurd hev (List.not_mem_nil ev))
          exact ⟨h.1, h.2, by simp⟩
  · simp only [CreateBackendSwitchingRule]
    split
    · rename_i e1 heq
      have h := invProps_error c.cacheEnabled [] e1 transactionID frontend (fun ev hev => absurd hev (List.not_mem_nil ev))
      exact ⟨h.1, h.2, by simp⟩
    · rcases hco : createObject c (formatInt data.id) "usefarm" frontend "service"
        data transactionID version with ⟨r0, evs0⟩
      have hno : ∀ ev ∈ evs0, ev.isInvalidate = false := fun ev hev =>
        createObject_no_invalidate c (formatInt data.id) "usefarm" frontend "service"
          data transactionID version ev (by rw [hco]; exact hev)
      rcases r0 with e0 | u0
      · simp only [hco]
        have h := invProps_error c.cacheEnabled evs0 e0 transactionID frontend hno
        exact ⟨h.1, h.2, by simp⟩
      · simp only [hco]
        by_cases hen : c.cacheEnabled = true
        · rw [if_pos hen]
          have h := invProps_ok_enabled c.cacheEnabled hen evs0 Family.bckswitch
            transactionID frontend none hno
          exact ⟨h.1, h.2, by simp⟩
        · rw [if_neg hen]
          have h := invProps_ok_disabled c.cacheEnabled hen evs0 transactionID
            frontend hno
          exact ⟨h.1, h.2, by simp⟩
  · simp only [DeleteBackendSwitchingRule]
    rcases hco : deleteObject c (formatInt id) "usefarm" frontend "service"
      transactionID version with ⟨r0, evs0⟩
    have hno : ∀ ev ∈ evs0, ev.isInvalidate = false := fun ev hev =>
      deleteObject_no_invalidate c (formatInt id) "usefarm" frontend "service"
        transactionID version ev (by rw [hco]; exact hev)
    rcases r0 with e0 | u0
    · simp only [hco]
      have h := invProps_error c.cacheEnabled evs0 e0 transactionID frontend hno
      exact ⟨h.1, h.2, by simp⟩
    · simp only [hco]
      by_cases hen : c.cacheEnabled = true
      · rw [if_pos hen]
        have h := invProps_ok_enabled c.cacheEnabled hen evs0 Family.bckswitch
          transactionID frontend none hno
        exact ⟨h.1, h.2, by simp⟩
      · rw [if_neg hen]
        have h := invProps_ok_disabled c.cacheEnabled hen evs0 transactionID
          frontend hno
        exact ⟨h.1, h.2, by simp⟩
  · simp only [EditTCPContentRule]
    split
    · rename_i e1 heq
      have h := invProps_error c.cacheEnabled [] e1 transactionID parentName (fun ev hev => absurd hev (List.not_mem_nil ev))
      exact ⟨h.1, h.2⟩
    · split
      · have h := invProps_error c.cacheEnabled [] (NewConfError ErrValidationError
          ("Parent type " ++ parentType ++ " not recognized")) transactionID
          parentName (fun ev hev => absurd hev (List.not_mem_nil ev))
        exact ⟨h.1, h.2⟩
      · split
        · rcases hget : GetTCPContentRule c st id parentType parentName ruleType
            transactionID with ⟨gr, gevs, gst⟩
          have hgno : ∀ ev ∈ gevs, ev.isInvalidate = false := fun ev hev =>
            (getTCPContentRule_events c st id parentType parentName ruleType
              transactionID ev (by rw [hget]; exact hev)).1
          rcases gr with ge | gb
          · simp only [hget]
            have h := invProps_error c.cacheEnabled gevs ge transactionID parentName hgno
            exact ⟨h.1, h.2⟩
          · rcases hed : editObject c (formatInt data.id) "tcpreqcont" parentName
              (typeToLbctlType parentType) data gb.data transactionID version
              with ⟨r0, evs0⟩
            have heno : ∀ ev ∈ evs0, ev.isInvalidate = false := fun ev hev =>
              editObject_no_invalidate c (formatInt data.id) "tcpreqcont" parentName
                (typeToLbctlType parentType) data gb.data transactionID version ev
                (by rw [hed]; exact hev)
            have hgeno : ∀ ev ∈ gevs ++ evs0, ev.isInvalidate = false := by
              intro ev hev
              rcases List.mem_append.mp hev with h1 | h1
              · exact hgno ev h1
              · exact heno ev h1
            rcases r0 with e0 | u0
            · simp only [hget, hed]
              have h := invProps_error c.cacheEnabled (gevs ++ evs0) e0 transactionID
                parentName hgeno
              exact ⟨h.1, h.2⟩
            · simp only [hget, hed]
              by_cases hen : c.cacheEnabled = true
              · rw [if_pos hen]
                have h := invProps_ok_enabled c.cacheEnabled hen (gevs ++ evs0)
                  Family.tcpreq transactionID parentName (some parentType) hgeno
                exact ⟨h.1, h.2⟩
              · rw [if_neg hen]
                have h := invProps_ok_disabled c.cacheEnabled hen (gevs ++ evs0)
                  transactionID parentName hgeno
                exact ⟨h.1, h.2⟩
        · split
          · split
            · have h := invProps_error c.cacheEnabled [] (NewConfError ErrValidationError
                "Rule type cannot be response for frontend parent") transactionID
                parentName (fun ev hev => absurd hev (List.not_mem_nil ev))
              exact ⟨h.1, h.2⟩
            · rcases hget : GetTCPContentRule c st id parentType parentName ruleType
                transactionID with ⟨gr, gevs, gst⟩
              have hgno : ∀ ev ∈ gevs, ev.isInvalidate = false := fun ev hev =>
                (getTCPContentRule_events c st id parentType parentName ruleType
                  transactionID ev (by rw [hget]; exact hev)).1
              rcases gr with ge | gb
              · simp only [hget]
                have h := invProps_error c.cacheEnabled gevs ge transactionID parentName hgno
                exact ⟨h.1, h.2⟩
              · rcases hed : editObject c (formatInt data.id) "tcprspcont" parentName
                  (typeToLbctlType parentType) data gb.data transactionID version
                  with ⟨r0, evs0⟩
                have heno : ∀ ev ∈ evs0, ev.isInvalidate = false := fun ev hev =>
                  editObject_no_invalidate c (formatInt data.id) "tcprspcont" parentName
                    (typeToLbctlType parentType) data gb.data transactionID version ev
                    (by rw [hed]; exact hev)
                have hgeno : ∀ ev ∈ gevs ++ evs0, ev.isInvalidate = false := by
                  intro ev hev
                  rcases List.mem_append.mp hev with h1 | h1
                  · exact hgno ev h1
                  · exact heno ev h1
                rcases r0 with e0 | u0
                · simp only [hget, hed]
                  have h := invProps_error c.cacheEnabled (gevs ++ evs0) e0 transactionID
                    parentName hgeno
                  exact ⟨h.1, h.2⟩
                · simp only [hget, hed]
                  by_cases hen : c.cacheEnabled = true
                  · rw [if_pos hen]
                    have h := invProps_ok_enabled c.cacheEnabled hen (gevs ++ evs0)
                      Family.tcprsp transactionID parentName none hgeno
                    exact ⟨h.1, h.2⟩
                  · rw [if_neg hen]
                    have h := invProps_ok_disabled c.cacheEnabled hen (gevs ++ evs0)
                      transactionID parentName hgeno
                    exact ⟨h.1, h.2⟩
          · have h := invProps_error c.cacheEnabled [] (NewConfError ErrValidationError
              ("Rule type " ++ ruleType ++ " not recognized")) transactionID
              parentName (fun ev hev => absurd hev (List.not_mem_nil ev))
            exact ⟨h.1, h.2⟩
  · simp only [EditBackendSwitchingRule]
    split
    · rename_i e1 heq
      have h := invProps_error c.cacheEnabled [] e1 transactionID frontend (fun ev hev => absurd hev (List.not_mem_nil ev))
      exact ⟨h.1, h.2⟩
    · rcases hget : GetBackendSwitchingRule c st id frontend transactionID
        with ⟨gr, gevs, gst⟩
      have hgno : ∀ ev ∈ gevs, ev.isInvalidate = false := fun ev hev =>
        (getBackendSwitchingRule_events c st id frontend transactionID ev
          (by rw [hget]; exact hev)).1
      rcases gr with ge | gb
      · simp only [hget]
        have h := invProps_error c.cacheEnabled gevs ge transactionID frontend hgno
        exact ⟨h.1, h.2⟩
      · rcases hed : editObject c (formatInt data.id) "usefarm" frontend "service"
          data gb.data transactionID version with ⟨r0, evs0⟩
        have heno : ∀ ev ∈ evs0, ev.isInvalidate = false := fun ev hev =>
          editObject_no_invalidate c (formatInt data.id) "usefarm" frontend "service"
            data gb.data transactionID version ev (by rw [hed]; exact hev)
        have hgeno : ∀ ev ∈ gevs ++ evs0, ev.isInvalidate = false := by
          intro ev hev
          rcases List.mem_append.mp hev with h1 | h1
          · exact hgno ev h1
          · exact heno ev h1
        rcases r0 with e0 | u0
        · simp only [hget, hed]
          have h := invProps_error c.cacheEnabled (gevs ++ evs0) e0 transactionID
            frontend hgeno
          exact ⟨h.1, h.2⟩
        · simp only [hget, hed]
          by_cases hen : c.cacheEnabled = true
          · rw [if_pos hen]
            have h := invProps_ok_enabled c.cacheEnabled hen (gevs ++ evs0)
              Family.bckswitch transactionID frontend none hgeno
            exact ⟨h.1, h.2⟩
          · rw [if_neg hen]
            have h := invProps_ok_disabled c.cacheEnabled hen (gevs ++ evs0)
              transactionID frontend hgeno
            exact ⟨h.1, h.2⟩

/-- Witness for C5 at a concrete successful delete with the cache enabled:
an invalidation happens hitting the call's transaction and frontend. -/
theorem invalidation_iff_engine_success_witness :
    (∃ ev ∈ (DeleteBackendSwitchingRule okClient emptyCache 1 "f1" "t1" 0).2.1,
      ev.isInvalidate = true) ∧
    ((Event.invalidate Family.bckswitch "t1" "f1" none
        ∈ (DeleteBackendSwitchingRule okClient emptyCache 1 "f1" "t1" 0).2.1) →
      ("t1" : String) = "t1" ∧ ("f1" : String) = "f1") := by
  have h := invalidation_iff_engine_success okClient emptyCache 1 "frontend"
    "f1" "request" "f1" "t1" ⟨1, []⟩ 0
  refine ⟨h.2.2.2.1.1.mpr ⟨by decide, rfl⟩, fun hmem => ?_⟩
  exact h.2.2.2.1.2.1 (Event.invalidate Family.bckswitch "t1" "f1" none) hmem
    Family.bckswitch "t1" "f1" none rfl

theorem validation_none (c : Client) (data : RuleObj)
    (hval : c.useValidation = true → c.validate data = none) :
    (if c.useValidation = true then
      match c.validate data with
      | some msg => some (NewConfError ErrValidationError msg)
      | none => none
    else none) = none := by
  by_cases hu : c.useValidation = true
  · rw [if_pos hu, hval hu]
  · rw [if_neg hu]

theorem editBck_prefetch_error (c : Client) (st : CacheState) (id : Int)
    (frontend : String) (data : RuleObj) (transactionID : String) (version : Int)
    (e : ConfError) (gevs : List Event) (gst : CacheState)
    (hval : c.useValidation = true → c.validate data = none)
    (hget : GetBackendSwitchingRule c st id frontend transactionID
      = (Except.error e, gevs, gst)) :
    EditBackendSwitchingRule c st id frontend data transactionID version
      = (Except.error e, gevs, gst) := by
  simp only [EditBackendSwitchingRule, validation_none c data hval, hget]

theorem editBck_engine_event (c : Client) (st : CacheState) (id : Int)
    (frontend : String) (data : RuleObj) (transactionID : String) (version : Int)
    (g : GetRuleOKBody) (gevs : List Event) (gst : CacheState)
    (hval : c.useValidation = true → c.validate data = none)
    (hck : checkTransactionOrVersion transactionID version = none)
    (hget : GetBackendSwitchingRule c st id frontend transactionID
      = (Except.ok g, gevs, gst)) :
    (EditBackendSwitchingRule c st id frontend data transactionID
      version).2.1.take gevs.length = gevs ∧
    Event.engineCall "l7-service-usefarm-edit" transactionID
        [frontend, formatInt data.id] [data, g.data]
      ∈ (EditBackendSwitchingRule c st id frontend data transactionID
        version).2.1 := by
  simp only [EditBackendSwitchingRule, validation_none c data hval, hget,
    editObject, hck]
  rcases hex : c.executeLBCTL ("l7-" ++ "service" ++ "-" ++ "usefarm" ++ "-edit")
    transactionID [frontend, formatInt data.id] with e0 | s0
  · simp only [hex]
    constructor
    · rw [List.take_left]
    · simp
  · simp only [hex]
    by_cases hen : c.cacheEnabled = true
    · rw [if_pos hen]
      constructor
      · rw [List.append_assoc, List.take_left]
      · simp
    · rw [if_neg hen]
      constructor
      · rw [List.take_left]
      · simp

theorem editTCP_prefetch_error (c : Client) (st : CacheState) (id : Int)
    (parentType parentName ruleType : String) (data : RuleObj)
    (transactionID : String) (version : Int) (rt : String)
    (e : ConfError) (gevs : List Event) (gst : CacheState)
    (hval : c.useValidation = true → c.validate data = none)
    (hpt : ¬typeToLbctlType parentType = "")
    (hrt : (ruleType = "request" ∧ rt = "tcpreqcont") ∨
      (ruleType = "response" ∧ ¬parentType = "frontend" ∧ rt = "tcprspcont"))
    (hget : GetTCPContentRule c st id parentType parentName ruleType
      transactionID = (Except.error e, gevs, gst)) :
    EditTCPContentRule c st id parentType parentName ruleType data
      transactionID version = (Except.error e, gevs, gst) := by
  simp only [EditTCPContentRule, validation_none c data hval]
  rw [if_neg hpt]
  rcases hrt with ⟨hr, hrt⟩ | ⟨hr, hnf, hrt⟩
  · rw [if_pos hr]
    simp only [hget]
  · rw [if_neg (by rw [hr]; decide), if_pos hr, if_neg hnf]
    simp only [hget]

theorem editTCP_engine_event (c : Client) (st : CacheState) (id : Int)
    (parentType parentName ruleType : String) (data : RuleObj)
    (transactionID : String) (version : Int) (rt : String)
    (g : GetRuleOKBody) (gevs : List Event) (gst : CacheState)
    (hval : c.useValidation = true → c.validate data = none)
    (hck : checkTransactionOrVersion transactionID version = none)
    (hpt : ¬typeToLbctlType parentType = "")
    (hrt : (ruleType = "request" ∧ rt = "tcpreqcont") ∨
      (ruleType = "response" ∧ ¬parentType = "frontend" ∧ rt = "tcprspcont"))
    (hget : GetTCPContentRule c st id parentType parentName ruleType
      transactionID = (Except.ok g, gevs, gst)) :
    (EditTCPContentRule c st id parentType parentName ruleType data
      transactionID version).2.1.take gevs.length = gevs ∧
    Event.engineCall ("l7-" ++ typeToLbctlType parentType ++ "-" ++ rt ++ "-edit")
        transactionID [parentName, formatInt data.id] [data, g.data]
      ∈ (EditTCPContentRule c st id parentType parentName ruleType data
        transactionID version).2.1 := by
  simp only [EditTCPContentRule, validation_none c data hval]
  rw [if_neg hpt]
  rcases hrt with ⟨hr, hrt⟩ | ⟨hr, hnf, hrt⟩
  all_goals subst hrt
  · rw [if_pos hr]
    simp only [hget, editObject, hck]
    rcases hex : c.executeLBCTL ("l7-" ++ typeToLbctlType parentType ++ "-"
      ++ "tcpreqcont" ++ "-edit") transactionID [parentName, formatInt data.id]
      with e0 | s0
    · simp only [hex]
      exact ⟨by rw [List.take_left], by simp⟩
    · simp only [hex]
      by_cases hen : c.cacheEnabled = true
      · rw [if_pos hen, if_pos hr]
        exact ⟨by rw [List.append_assoc, List.take_left], by simp⟩
      · rw [if_neg hen]
        exact ⟨by rw [List.take_left], by simp⟩
  · rw [if_neg (by rw [hr]; decide), if_pos hr, if_neg hnf]
    simp only [hget, editObject, hck]
    rcases hex : c.executeLBCTL ("l7-" ++ typeToLbctlType parentType ++ "-"
      ++ "tcprspcont" ++ "-edit") transactionID [parentName, formatInt data.id]
      with e0 | s0
    · simp only [hex]
      exact ⟨by rw [List.take_left], by simp⟩
    · simp only [hex]
      by_cases hen : c.cacheEnabled = true
      · rw [if_pos hen, if_neg (by rw [hr]; decide), if_pos hr]
        exact ⟨by rw [List.append_assoc, List.take_left], by simp⟩
      · rw [if_neg hen]
        exact ⟨by rw [List.take_left], by simp⟩

/-- C7: once validation (and, for the TCP operation, scope resolution)
passes, each Edit first re-fetches the pre-image entity through the
corresponding Get-one and hands both the fetched old entity and the new
payload to the engine edit call; if the Get-one fails, the Edit returns that
error with exactly the Get-one's events — so no engine edit (no engine event
carrying a payload) and no cache invalidation happen. -/
theorem edit_refetches_preimage_before_engine :
    ∀ (c : Client) (st : CacheState) (id : Int)
      (parentType parentName ruleType frontend transactionID : String)
      (data : RuleObj) (version : Int),
      (c.useValidation = true → c.validate data = none) →
      ((∀ e gevs gst,
          GetBackendSwitchingRule c st id frontend transactionID
            = (Except.error e, gevs, gst) →
          EditBackendSwitchingRule c st id frontend data transactionID version
            = (Except.error e, gevs, gst) ∧
          (∀ ev ∈ gevs, ev.isInvalidate = false ∧
            (∀ cmd tx2 args pl, ev = Event.engineCall cmd tx2 args pl →
              pl = []))) ∧
        (∀ g gevs gst,
          GetBackendSwitchingRule c st id frontend transactionID
            = (Except.ok g, gevs, gst) →
          checkTransactionOrVersion transactionID version = none →
          (EditBackendSwitchingRule c st id frontend data transactionID
            version).2.1.take gevs.length = gevs ∧
          Event.engineCall "l7-service-usefarm-edit" transactionID
              [frontend, formatInt data.id] [data, g.data]
            ∈ (EditBackendSwitchingRule c st id frontend data transactionID
              version).2.1)) ∧
      (typeToLbctlType parentType ≠ "" →
        ∀ rt, ((ruleType = "request" ∧ rt = "tcpreqcont") ∨
            (ruleType = "response" ∧ ¬parentType = "frontend" ∧
              rt = "tcprspcont")) →
        ((∀ e gevs gst,
            GetTCPContentRule c st id parentType parentName ruleType
              transactionID = (Except.error e, gevs, gst) →
            EditTCPContentRule c st id parentType parentName ruleType data
              transactionID version = (Except.error e, gevs, gst) ∧
            (∀ ev ∈ gevs, ev.isInvalidate = false ∧
              (∀ cmd tx2 args pl, ev = Event.engineCall cmd tx2 args pl →
                pl = []))) ∧
          (∀ g gevs gst,
            GetTCPContentRule c st id parentType parentName ruleType
              transactionID = (Except.ok g, gevs, gst) →
            checkTransactionOrVersion transactionID version = none →
            (EditTCPContentRule c st id parentType parentName ruleType data
              transactionID version).2.1.take gevs.length = gevs ∧
            Event.engineCall ("l7-" ++ typeToLbctlType parentType ++ "-" ++ rt
                ++ "-edit") transactionID [parentName, formatInt data.id]
                [data, g.data]
              ∈ (EditTCPContentRule c st id parentType parentName ruleType data
                transactionID version).2.1))) := by
  intro c st id parentType parentName ruleType frontend transactionID data
    version hval
  refine ⟨⟨?_, ?_⟩, ?_⟩
  · intro e gevs gst hget
    refine ⟨editBck_prefetch_error c st id frontend data transactionID version
      e gevs gst hval hget, ?_⟩
    intro ev hev
    have h := getBackendSwitchingRule_events c st id frontend transactionID ev
      (by rw [hget]; exact hev)
    exact ⟨h.1, fun cmd tx2 args pl hEv => (h.2 cmd tx2 args pl hEv).2⟩
  · intro g gevs gst hget hck
    exact editBck_engine_event c st id frontend data transactionID version
      g gevs gst hval hck hget
  · intro hpt rt hrt
    refine ⟨?_, ?_⟩
    · intro e gevs gst hget
      refine ⟨editTCP_prefetch_error c st id parentType parentName ruleType
        data transactionID version rt e gevs gst hval hpt hrt hget, ?_⟩
      intro ev hev
      have h := getTCPContentRule_events c st id parentType parentName ruleType
        transactionID ev (by rw [hget]; exact hev)
      exact ⟨h.1, fun cmd tx2 args pl hEv => (h.2 cmd tx2 args pl hEv).2⟩
    · intro g gevs gst hget hck
      exact editTCP_engine_event c st id parentType parentName ruleType data
        transactionID version rt g gevs gst hval hck hpt hrt hget

/-- Witness for C7 at a concrete call: with the cache disabled the pre-image
fetch succeeds via the engine show, and the engine edit event carrying both
entities appears after the fetch's events. -/
theorem edit_refetches_preimage_before_engine_witness :
    (EditBackendSwitchingRule disabledClient emptyCache 1 "f1" ⟨2, []⟩ "t1"
      0).2.1.take 1
      = [Event.engineCall "l7-service-usefarm-show" "t1" ["f1", formatInt 1] []] ∧
    Event.engineCall "l7-service-usefarm-edit" "t1" ["f1", formatInt 2]
        [⟨2, []⟩, ⟨1, []⟩]
      ∈ (EditBackendSwitchingRule disabledClient emptyCache 1 "f1" ⟨2, []⟩ "t1"
        0).2.1 := by
  have h := (edit_refetches_preimage_before_engine disabledClient emptyCache 1
    "frontend" "f1" "request" "f1" "t1" ⟨2, []⟩ 0
    (fun hu => by cases hu)).1.2 ⟨1, ⟨1, []⟩⟩
    [Event.engineCall "l7-service-usefarm-show" "t1" ["f1", formatInt 1] []]
    emptyCache rfl (by decide)
  exact ⟨h.1, h.2⟩

/-- C10: the Edit operations fetch the pre-image with the id argument but
format the payload's own ID into the engine edit invocation, so whenever
data.ID differs from the id argument the entity identified to the engine for
editing is not the entity that was fetched as the pre-image: the engine edit
call's argument list carries formatInt data.ID, which differs from
formatInt id. -/
theorem edit_engine_identifier_is_payload_id :
    ∀ (c : Client) (st : CacheState) (id : Int)
      (parentType parentName ruleType frontend transactionID : String)
      (data : RuleObj) (version : Int),
      (c.useValidation = true → c.validate data = none) →
      checkTransactionOrVersion transactionID version = none →
      data.id ≠ id →
      formatInt data.id ≠ formatInt id ∧
      (∀ g gevs gst,
        GetBackendSwitchingRule c st id frontend transactionID
          = (Except.ok g, gevs, gst) →
        Event.engineCall "l7-service-usefarm-edit" transactionID
            [frontend, formatInt data.id] [data, g.data]
          ∈ (EditBackendSwitchingRule c st id frontend data transactionID
            version).2.1 ∧
        ([frontend, formatInt data.id] : List String)
          ≠ [frontend, formatInt id]) ∧
      (typeToLbctlType parentType ≠ "" →
        ∀ rt, ((ruleType = "request" ∧ rt = "tcpreqcont") ∨
            (ruleType = "response" ∧ ¬parentType = "frontend" ∧
              rt = "tcprspcont")) →
        ∀ g gevs gst,
          GetTCPContentRule c st id parentType parentName ruleType
            transactionID = (Except.ok g, gevs, gst) →
          Event.engineCall ("l7-" ++ typeToLbctlType parentType ++ "-" ++ rt
              ++ "-edit") transactionID [parentName, formatInt data.id]
              [data, g.data]
            ∈ (EditTCPContentRule c st id parentType parentName ruleType data
              transactionID version).2.1 ∧
          ([parentName, formatInt data.id] : List String)
            ≠ [parentName, formatInt id]) := by
  intro c st id parentType parentName ruleType frontend transactionID data
    version hval hck hne
  have hfne : formatInt data.id ≠ formatInt id := fun h => hne (formatInt_inj h)
  have hargs : ∀ a : String, ([a, formatInt data.id] : List String)
      ≠ [a, formatInt id] := by
    intro a hl
    apply hfne
    have := List.cons.injEq a [formatInt data.id] a [formatInt id] ▸ hl
    simpa using hl
  refine ⟨hfne, ?_, ?_⟩
  · intro g gevs gst hget
    exact ⟨(editBck_engine_event c st id frontend data transactionID version
      g gevs gst hval hck hget).2, hargs frontend⟩
  · intro hpt rt hrt g gevs gst hget
    exact ⟨(editTCP_engine_event c st id parentType parentName ruleType data
      transactionID version rt g gevs gst hval hck hpt hrt hget).2,
      hargs parentName⟩

/-- Witness for C10 at a concrete call with payload ID 2 and argument ID 1:
the engine edit is told to edit entity "2" while the pre-image was fetched
for entity "1". -/
theorem edit_engine_identifier_is_payload_id_witness :
    formatInt 2 ≠ formatInt 1 ∧
    Event.engineCall "l7-service-usefarm-edit" "t1" ["f1", formatInt 2]
        [⟨2, []⟩, ⟨1, []⟩]
      ∈ (EditBackendSwitchingRule disabledClient emptyCache 1 "f1" ⟨2, []⟩ "t1"
        0).2.1 := by
  have h := edit_engine_identifier_is_payload_id disabledClient emptyCache 1
    "frontend" "f1" "request" "f1" "t1" ⟨2, []⟩ 0
    (fun hu => by cases hu) (by decide) (by decide)
  exact ⟨h.1, (h.2.1 ⟨1, ⟨1, []⟩⟩
    [Event.engineCall "l7-service-usefarm-show" "t1" ["f1", formatInt 1] []]
    emptyCache rfl).1⟩

theorem createObject_no_write (c : Client)
    (objID rType parentName lbctlType : String) (data : RuleObj)
    (transactionID : String) (version : Int) :
    ∀ ev ∈ (createObject c objID rType parentName lbctlType data
      transactionID version).2, ev.isWrite = false := by
  simp only [createObject]
  repeat' split
  all_goals simp [Event.isWrite]

theorem invalidateParentSt_frame (st : CacheState) (fam : Family)
    (tx name ptype : String) :
    ∀ k, invalidateParentSt st fam tx name ptype k ≠ st k →
      k.tx = tx ∧ k.parentName = name ∧
        invalidateParentSt st fam tx name ptype k = none := by
  intro k hk
  by_cases hc : k.fam = fam ∧ k.tx = tx ∧ k.parentName = name ∧
    k.parentType = ptype
  · exact ⟨hc.2.1, hc.2.2.1, by simp [invalidateParentSt, hc]⟩
  · exact absurd (by simp [invalidateParentSt, hc]) hk

theorem invalidateNameSt_frame (st : CacheState) (fam : Family)
    (tx name : String) :
    ∀ k, invalidateNameSt st fam tx name k ≠ st k →
      k.fam = fam ∧ k.tx = tx ∧ k.parentName = name ∧
        invalidateNameSt st fam tx name k = none := by
  intro k hk
  by_cases hc : k.fam = fam ∧ k.tx = tx ∧ k.parentName = name
  · exact ⟨hc.1, hc.2.1, hc.2.2, by simp [invalidateNameSt, hc]⟩
  · exact absurd (by simp [invalidateNameSt, hc]) hk

/-- C8: a Create never populates the cache — its event trace contains no Set
or SetAll — and the only cache change it can make is the invalidation of the
affected scope: every key whose entry changes lies in the call's transaction
under the call's parent name and ends up evicted (none), so every cache entry
outside the invalidated scope is untouched. -/
theorem create_never_populates_cache :
    ∀ (c : Client) (st : CacheState)
      (parentType parentName ruleType frontend transactionID : String)
      (data : RuleObj) (version : Int),
      ((∀ ev ∈ (CreateTCPContentRule c st parentType parentName ruleType data
          transactionID version).2.1, ev.isWrite = false) ∧
        (∀ k, (CreateTCPContentRule c st parentType parentName ruleType data
            transactionID version).2.2 k ≠ st k →
          k.tx = transactionID ∧ k.parentName = parentName ∧
            (CreateTCPContentRule c st parentType parentName ruleType data
              transactionID version).2.2 k = none)) ∧
      ((∀ ev ∈ (CreateBackendSwitchingRule c st frontend data transactionID
          version).2.1, ev.isWrite = false) ∧
        (∀ k, (CreateBackendSwitchingRule c st frontend data transactionID
            version).2.2 k ≠ st k →
          k.fam = Family.bckswitch ∧ k.tx = transactionID ∧
            k.parentName = frontend ∧
            (CreateBackendSwitchingRule c st frontend data transactionID
              version).2.2 k = none)) := by
  intro c st parentType parentName ruleType frontend transactionID data version
  constructor
  · simp only [CreateTCPContentRule]
    split
    · exact ⟨by simp, fun k hk => absurd rfl hk⟩
    · split
      · split
        · exact ⟨by simp, fun k hk => absurd rfl hk⟩
        · rcases hco : createObject c (formatInt data.id) "tcpreqcont" parentName
            (typeToLbctlType parentType) data transactionID version with ⟨r0, evs0⟩
          have hnw : ∀ ev ∈ evs0, ev.isWrite = false := fun ev hev =>
            createObject_no_write c (formatInt data.id) "tcpreqcont" parentName
              (typeToLbctlType parentType) data transactionID version ev
              (by rw [hco]; exact hev)
          rcases r0 with e0 | u0
          · simp only [hco]
            exact ⟨hnw, fun k hk => absurd rfl hk⟩
          · simp only [hco]
            by_cases hen : c.cacheEnabled = true
            · rw [if_pos hen]
              refine ⟨?_, ?_⟩
              · intro ev hev
                rcases List.mem_append.mp hev with h1 | h1
                · exact hnw ev h1
                · simp at h1
                  rw [h1]
                  rfl
              · intro k hk
                have h := invalidateParentSt_frame st Family.tcpreq transactionID
                  parentName parentType k hk
                exact ⟨h.1, h.2.1, h.2.2⟩
            · rw [if_neg hen]
              exact ⟨hnw, fun k hk => absurd rfl hk⟩
      · split
        · split
          · exact ⟨by simp, fun k hk => absurd rfl hk⟩
          · split
            · exact ⟨by simp, fun k hk => absurd rfl hk⟩
            · rcases hco : createObject c (formatInt data.id) "tcprspcont" parentName
                (typeToLbctlType parentType) data transactionID version with ⟨r0, evs0⟩
              have hnw : ∀ ev ∈ evs0, ev.isWrite = false := fun ev hev =>
                createObject_no_write c (formatInt data.id) "tcprspcont" parentName
                  (typeToLbctlType parentType) data transactionID version ev
                  (by rw [hco]; exact hev)
              rcases r0 with e0 | u0
              · simp only [hco]
                exact ⟨hnw, fun k hk => absurd rfl hk⟩
              · simp only [hco]
                by_cases hen : c.cacheEnabled = true
                · rw [if_pos hen]
                  refine ⟨?_, ?_⟩
                  · intro ev hev
                    rcases List.mem_append.mp hev with h1 | h1
                    · exact hnw ev h1
                    · simp at h1
                      rw [h1]
                      rfl
                  · intro k hk
                    have h := invalidateNameSt_frame st Family.tcprsp transactionID
                      parentName k hk
                    exact ⟨h.2.1, h.2.2.1, h.2.2.2⟩
                · rw [if_neg hen]
                  exact ⟨hnw, fun k hk => absurd rfl hk⟩
        · exact ⟨by simp, fun k hk => absurd rfl hk⟩
  · simp only [CreateBackendSwitchingRule]
    split
    · exact ⟨by simp, fun k hk => absurd rfl hk⟩
    · rcases hco : createObject c (formatInt data.id) "usefarm" frontend "service"
        data transactionID version with ⟨r0, evs0⟩
      have hnw : ∀ ev ∈ evs0, ev.isWrite = false := fun ev hev =>
        createObject_no_write c (formatInt data.id) "usefarm" frontend "service"
          data transactionID version ev (by rw [hco]; exact hev)
      rcases r0 with e0 | u0
      · simp only [hco]
        exact ⟨hnw, fun k hk => absurd rfl hk⟩
      · simp only [hco]
        by_cases hen : c.cacheEnabled = true
        · rw [if_pos hen]
          refine ⟨?_, ?_⟩
          · intro ev hev
            rcases List.mem_append.mp hev with h1 | h1
            · exact hnw ev h1
            · simp at h1
              rw [h1]
              rfl
          · intro k hk
            exact invalidateNameSt_frame st Family.bckswitch transactionID
              frontend k hk
        · rw [if_neg hen]
          exact ⟨hnw, fun k hk => absurd rfl hk⟩

/-- Witness for C8 at a concrete create over a seeded cache: the write-free
trace, and an entry outside the invalidated scope surviving while the changed
key is inside the scope and evicted. -/
theorem create_never_populates_cache_witness :
    (∀ ev ∈ (CreateBackendSwitchingRule okClient
        (fun k => if k = ⟨Family.bckswitch, "t1", "", "f1", some 1⟩ then
          some (CacheVal.one ⟨1, []⟩) else none)
        "f1" ⟨1, []⟩ "t1" 0).2.1, ev.isWrite = false) ∧
    ((CreateBackendSwitchingRule okClient
        (fun k => if k = ⟨Family.bckswitch, "t1", "", "f1", some 1⟩ then
          some (CacheVal.one ⟨1, []⟩) else none)
        "f1" ⟨1, []⟩ "t1" 0).2.2 ⟨Family.bckswitch, "t1", "", "f1", some 1⟩
        ≠ (fun k => if k = ⟨Family.bckswitch, "t1", "", "f1", some 1⟩ then
          some (CacheVal.one ⟨1, []⟩) else none)
          (⟨Family.bckswitch, "t1", "", "f1", some 1⟩ : CacheKey) →
      (⟨Family.bckswitch, "t1", "", "f1", some 1⟩ : CacheKey).fam
          = Family.bckswitch ∧
        (⟨Family.bckswitch, "t1", "", "f1", some 1⟩ : CacheKey).tx = "t1" ∧
        (⟨Family.bckswitch, "t1", "", "f1", some 1⟩ : CacheKey).parentName
          = "f1" ∧
        (CreateBackendSwitchingRule okClient
          (fun k => if k = ⟨Family.bckswitch, "t1", "", "f1", some 1⟩ then
            some (CacheVal.one ⟨1, []⟩) else none)
          "f1" ⟨1, []⟩ "t1" 0).2.2 ⟨Family.bckswitch, "t1", "", "f1", some 1⟩
          = none) := by
  have h := create_never_populates_cache okClient
    (fun k => if k = ⟨Family.bckswitch, "t1", "", "f1", some 1⟩ then
      some (CacheVal.one ⟨1, []⟩) else none)
    "frontend" "f1" "request" "f1" "t1" ⟨1, []⟩ 0
  exact ⟨h.2.1, h.2.2 ⟨Family.bckswitch, "t1", "", "f1", some 1⟩⟩
